import Mathlib

/-! # Lane-graph waypoints (`carla/client/Waypoint.cpp`)

A shallow embedding of `carla::client::Waypoint`: the single-step traversal
(`GetNext`, `GetPrevious`), the lane walk (`GetNextUntilLaneEnd`,
`GetPreviousUntilLaneStart`), the lateral neighbours (`GetRight`, `GetLeft`)
and the lane-change derivation (`GetLaneChange`).

Conventions of the embedding.
* An enumeration with a fixed `uint8_t` underlying type is its underlying
  value, a `Nat`; `static_cast` to the enumeration reduces modulo `2^8`.
* `lane_id` is a 32-bit signed integer, embedded as an `Int`; the result of
  an arithmetic operation on it is brought back into the 32-bit range.
* The `double` quantities (`s`, `distance`, the pose) are rationals: the code
  only passes them on to the road network, it never computes with them.
* `std::vector` is `List`, `emplace_back` appends at the end.
* `SharedPtr<Waypoint>` is the waypoint itself, a possibly-null one is an
  `Option`.
* A `while` loop is run with a bound on the number of tests of its
  condition; the result is `none` when the bound is reached before the loop
  exits.
* The cached marking pair is a pair of raw pointers, a null one is `none`;
  a method that dereferences them returns an `Except`, the dereference of a
  null pointer being the error.
-/

namespace carla

/-! ## Machine integers -/

/-- Static cast to an enumeration whose underlying type is `uint8_t`. -/
def static_cast_uint8 (x : Nat) : Nat := x % 2 ^ 8

/-- Smallest value of a 32-bit signed integer. -/
def INT32_MIN : Int := -(2 ^ 31)

/-- Largest value of a 32-bit signed integer. -/
def INT32_MAX : Int := 2 ^ 31 - 1

/-- Bring the mathematical result of a 32-bit signed operation back into
the 32-bit range (two's complement). -/
def wrap_int32 (x : Int) : Int := (x + 2 ^ 31) % 2 ^ 32 - 2 ^ 31

/-- The value is representable as a 32-bit signed integer. -/
def IsInt32 (x : Int) : Prop := INT32_MIN ≤ x ∧ x ≤ INT32_MAX

instance (x : Int) : Decidable (IsInt32 x) := by
  unfold IsInt32; exact inferInstance

namespace road

/-- Modelled from the spec: the raw marking record of the road network
(`RoadInfoMarkRecord`, declared outside `Waypoint.cpp`). The code reads only
its lane-change capability, given here by its underlying value; `attributes`
stands for everything else the record stores. -/
structure RoadInfoMarkRecord where
  lane_change : Nat
  attributes : Nat
  deriving DecidableEq, Repr

/-- Accessor `RoadInfoMarkRecord::GetLaneChange()`. -/
def RoadInfoMarkRecord.GetLaneChange (r : RoadInfoMarkRecord) : Nat := r.lane_change

namespace element

/-- Modelled from the spec: the enumerators of `LaneMarking::LaneChange`
(declared outside `Waypoint.cpp`), a bitset over `None = 0`, `Right = 1`,
`Left = 2`, `Both = 3`. -/
def LaneChange.None : Nat := 0

/-- Modelled from the spec: enumerator `LaneChange::Right`, bit 0. -/
def LaneChange.Right : Nat := 1

/-- Modelled from the spec: enumerator `LaneChange::Left`, bit 1. -/
def LaneChange.Left : Nat := 2

/-- Modelled from the spec: enumerator `LaneChange::Both`, both bits. -/
def LaneChange.Both : Nat := 3

/-- The value is one of the four enumerators of `LaneChange`. -/
def LaneChange.IsEnumerator (v : Nat) : Prop :=
  v = LaneChange.None ∨ v = LaneChange.Right ∨ v = LaneChange.Left ∨ v = LaneChange.Both

instance (v : Nat) : Decidable (LaneChange.IsEnumerator v) := by
  unfold LaneChange.IsEnumerator; exact inferInstance

/-- The `Right` bit of a lane-change value is set. -/
def LaneChange.HasRight (v : Nat) : Prop := v &&& LaneChange.Right = LaneChange.Right

/-- The `Left` bit of a lane-change value is set. -/
def LaneChange.HasLeft (v : Nat) : Prop := v &&& LaneChange.Left = LaneChange.Left

instance (v : Nat) : Decidable (LaneChange.HasRight v) := by
  unfold LaneChange.HasRight; exact inferInstance

instance (v : Nat) : Decidable (LaneChange.HasLeft v) := by
  unfold LaneChange.HasLeft; exact inferInstance

/-- Graph position `road::element::Waypoint`: road, lane and longitudinal
offset. -/
structure Waypoint where
  road_id : Nat
  lane_id : Int
  s : ℚ
  deriving DecidableEq, Repr

/-- Modelled from the spec: the value type `LaneMarking` (declared outside
`Waypoint.cpp`), constructed from a raw marking record: `LaneMarking(record)`
is the value that wraps `record`. -/
structure LaneMarking where
  record : RoadInfoMarkRecord
  deriving DecidableEq, Repr

end element

/-- Modelled from the spec: the pose `geom::Transform` computed by the road
network, a position and an orientation. -/
structure Transform where
  location : ℚ × ℚ × ℚ
  rotation : ℚ × ℚ × ℚ
  deriving DecidableEq, Repr

/-- Modelled from the spec: the road network `road::Map` (declared outside
`Waypoint.cpp`), given by the primitive queries the waypoint code calls. -/
structure Map where
  ComputeTransform : element.Waypoint → Transform
  GetMarkRecord : element.Waypoint → Option RoadInfoMarkRecord × Option RoadInfoMarkRecord
  GetNext : element.Waypoint → ℚ → List element.Waypoint
  GetPrevious : element.Waypoint → ℚ → List element.Waypoint
  GetRight : element.Waypoint → Option element.Waypoint
  GetLeft : element.Waypoint → Option element.Waypoint

end road

namespace client

/-- Modelled from the spec: the client-side map `client::Map` (declared
outside `Waypoint.cpp`), the shared owner of the road network. -/
structure Map where
  _map : road.Map

/-- Accessor `Map::GetMap()`. -/
def Map.GetMap (m : Map) : road.Map := m._map

/-- The members of `client::Waypoint`. -/
structure Waypoint where
  _parent : Map
  _waypoint : road.element.Waypoint
  _transform : road.Transform
  _mark_record : Option road.RoadInfoMarkRecord × Option road.RoadInfoMarkRecord

/-- Constructor `Waypoint::Waypoint(parent, waypoint)`: the pose and the
marking pair are computed once, from the road network. -/
def Waypoint.ctor (parent : Map) (waypoint : road.element.Waypoint) : Waypoint :=
  { _parent := parent
    _waypoint := waypoint
    _transform := parent.GetMap.ComputeTransform waypoint
    _mark_record := parent.GetMap.GetMarkRecord waypoint }

/-- Accessor `Waypoint::GetRoadId()`. -/
def Waypoint.GetRoadId (self : Waypoint) : Nat := self._waypoint.road_id

/-- Accessor `Waypoint::GetLaneId()`. -/
def Waypoint.GetLaneId (self : Waypoint) : Int := self._waypoint.lane_id

/-- The loop shared by `GetNext` and `GetPrevious`: every location is
wrapped into a new waypoint of the same parent, appended to `result`. -/
def Waypoint.wrap_all (parent : Map) (waypoints : List road.element.Waypoint) : List Waypoint :=
  waypoints.foldl (fun result waypoint => result ++ [Waypoint.ctor parent waypoint]) []

/-- Method `Waypoint::GetNext(distance)`. -/
def Waypoint.GetNext (self : Waypoint) (distance : ℚ) : List Waypoint :=
  let waypoints := self._parent.GetMap.GetNext self._waypoint distance
  Waypoint.wrap_all self._parent waypoints

/-- Method `Waypoint::GetPrevious(distance)`. -/
def Waypoint.GetPrevious (self : Waypoint) (distance : ℚ) : List Waypoint :=
  let waypoints := self._parent.GetMap.GetPrevious self._waypoint distance
  Waypoint.wrap_all self._parent waypoints

/-- Method `Waypoint::GetRight()`; `none` is the null pointer. -/
def Waypoint.GetRight (self : Waypoint) : Option Waypoint :=
  match self._parent.GetMap.GetRight self._waypoint with
  | some right_lane_waypoint => some (Waypoint.ctor self._parent right_lane_waypoint)
  | none => none

/-- Method `Waypoint::GetLeft()`; `none` is the null pointer. -/
def Waypoint.GetLeft (self : Waypoint) : Option Waypoint :=
  match self._parent.GetMap.GetLeft self._waypoint with
  | some left_lane_waypoint => some (Waypoint.ctor self._parent left_lane_waypoint)
  | none => none

/-- Operator `&` on the enumeration: on the underlying values, cast back. -/
def LaneChange_and (lhs rhs : Nat) : Nat := static_cast_uint8 (lhs &&& rhs)

/-- Operator `|` on the enumeration: on the underlying values, cast back. -/
def LaneChange_or (lhs rhs : Nat) : Nat := static_cast_uint8 (lhs ||| rhs)

/-- The exchange of `Right` and `Left` applied "if road goes backward". -/
def swap_right_left (c : Nat) : Nat :=
  if c = road.element.LaneChange.Right then road.element.LaneChange.Left
  else if c = road.element.LaneChange.Left then road.element.LaneChange.Right
  else c

/-- The lane id tested before the left value is exchanged:
`(lane_id > 0) ? lane_id - 1 : lane_id + 1`, in 32-bit arithmetic. -/
def neighbour_lane_id (lane_id : Int) : Int :=
  if lane_id > 0 then wrap_int32 (lane_id - 1) else wrap_int32 (lane_id + 1)

/-- The value `GetLaneChange()` reads from one side of the cached pair: the
capability of the record, `Both` when there is no record. -/
def raw_lane_change (info : Option road.RoadInfoMarkRecord) : Nat :=
  match info with
  | some lane_change_info => static_cast_uint8 lane_change_info.GetLaneChange
  | none => road.element.LaneChange.Both

/-- Method `Waypoint::GetLaneChange()`. -/
def Waypoint.GetLaneChange (self : Waypoint) : Nat :=
  let c_right :=
    match self._mark_record.1 with
    | some lane_change_right_info => static_cast_uint8 lane_change_right_info.GetLaneChange
    | none => road.element.LaneChange.Both
  let c_left :=
    match self._mark_record.2 with
    | some lane_change_left_info => static_cast_uint8 lane_change_left_info.GetLaneChange
    | none => road.element.LaneChange.Both
  let c_right := if self._waypoint.lane_id > 0 then swap_right_left c_right else c_right
  let c_left :=
    if neighbour_lane_id self._waypoint.lane_id > 0 then swap_right_left c_left else c_left
  LaneChange_or (LaneChange_and c_right road.element.LaneChange.Right)
    (LaneChange_and c_left road.element.LaneChange.Left)

/-- The way a call fails: it dereferences a null pointer. -/
inductive Fault where
  | null_dereference
  deriving DecidableEq, Repr

/-- Method `Waypoint::GetRightLaneMarking()`: when `_mark_record.first` is
not null, the marking built from `*_mark_record.first`; the empty optional
otherwise. -/
def Waypoint.GetRightLaneMarking (self : Waypoint) :
    Except Fault (Option road.element.LaneMarking) :=
  if self._mark_record.1.isSome then
    match self._mark_record.1 with
    | some record => Except.ok (some (road.element.LaneMarking.mk record))
    | none => Except.error Fault.null_dereference
  else Except.ok none

/-- Method `Waypoint::GetLeftLaneMarking()`: when `_mark_record.first` is not
null, the marking built from `*_mark_record.second`; the empty optional
otherwise. -/
def Waypoint.GetLeftLaneMarking (self : Waypoint) :
    Except Fault (Option road.element.LaneMarking) :=
  if self._mark_record.1.isSome then
    match self._mark_record.2 with
    | some record => Except.ok (some (road.element.LaneMarking.mk record))
    | none => Except.error Fault.null_dereference
  else Except.ok none

/-! ## The lane walk

The two walks are `while` loops over the local variables `result`, `next`
and `isThereNext`. -/

/-- The local variables of `GetNextUntilLaneEnd` and
`GetPreviousUntilLaneStart`. -/
structure WalkState where
  result : List Waypoint
  next : List Waypoint
  isThereNext : Bool

/-- Body of the `for` loop of `GetNextUntilLaneEnd`, for one candidate `w`:
a candidate on the lane and road of `self` is appended to `result` and sets
`isThereNext`. -/
def Waypoint.GetNextUntilLaneEnd_visit (self : Waypoint)
    (acc : List Waypoint × Bool) (w : Waypoint) : List Waypoint × Bool :=
  if w.GetLaneId = self.GetLaneId ∧ w.GetRoadId = self.GetRoadId then
    (acc.1 ++ [w], true)
  else acc

/-- Body of the `while` loop of `GetNextUntilLaneEnd`: `isThereNext` is
cleared, the candidates of `next` are scanned, and when `result` is not
empty `next` becomes the step from its last element. -/
def Waypoint.GetNextUntilLaneEnd_round (self : Waypoint) (distance : ℚ)
    (st : WalkState) : WalkState :=
  let scanned := st.next.foldl self.GetNextUntilLaneEnd_visit (st.result, false)
  let next :=
    match scanned.1.getLast? with
    | some back => back.GetNext distance
    | none => st.next
  { result := scanned.1, next := next, isThereNext := scanned.2 }

/-- The `while` loop of `GetNextUntilLaneEnd`, for at most `fuel` tests of
its condition. -/
def Waypoint.GetNextUntilLaneEnd_loop (self : Waypoint) (distance : ℚ) :
    Nat → WalkState → Option (List Waypoint)
  | 0, _ => none
  | fuel + 1, st =>
    if st.isThereNext then
      Waypoint.GetNextUntilLaneEnd_loop self distance fuel
        (self.GetNextUntilLaneEnd_round distance st)
    else some st.result

/-- Method `Waypoint::GetNextUntilLaneEnd(distance)`, the loop bounded by
`fuel`. -/
def Waypoint.GetNextUntilLaneEnd (self : Waypoint) (distance : ℚ) (fuel : Nat) :
    Option (List Waypoint) :=
  self.GetNextUntilLaneEnd_loop distance fuel
    { result := [], next := self.GetNext distance, isThereNext := true }

/-- Body of the `for` loop of `GetPreviousUntilLaneStart`, for one
candidate `w`. -/
def Waypoint.GetPreviousUntilLaneStart_visit (self : Waypoint)
    (acc : List Waypoint × Bool) (w : Waypoint) : List Waypoint × Bool :=
  if w.GetLaneId = self.GetLaneId ∧ w.GetRoadId = self.GetRoadId then
    (acc.1 ++ [w], true)
  else acc

/-- Body of the `while` loop of `GetPreviousUntilLaneStart`. -/
def Waypoint.GetPreviousUntilLaneStart_round (self : Waypoint) (distance : ℚ)
    (st : WalkState) : WalkState :=
  let scanned := st.next.foldl self.GetPreviousUntilLaneStart_visit (st.result, false)
  let next :=
    match scanned.1.getLast? with
    | some back => back.GetPrevious distance
    | none => st.next
  { result := scanned.1, next := next, isThereNext := scanned.2 }

/-- The `while` loop of `GetPreviousUntilLaneStart`, for at most `fuel`
tests of its condition. -/
def Waypoint.GetPreviousUntilLaneStart_loop (self : Waypoint) (distance : ℚ) :
    Nat → WalkState → Option (List Waypoint)
  | 0, _ => none
  | fuel + 1, st =>
    if st.isThereNext then
      Waypoint.GetPreviousUntilLaneStart_loop self distance fuel
        (self.GetPreviousUntilLaneStart_round distance st)
    else some st.result

/-- Method `Waypoint::GetPreviousUntilLaneStart(distance)`, the loop bounded
by `fuel`. -/
def Waypoint.GetPreviousUntilLaneStart (self : Waypoint) (distance : ℚ) (fuel : Nat) :
    Option (List Waypoint) :=
  self.GetPreviousUntilLaneStart_loop distance fuel
    { result := [], next := self.GetPrevious distance, isThereNext := true }

/-! ### The common shape of the two walks

The two loops differ only in the step they take. The definitions below state
that shape once, with the step as a parameter and the scan in closed form;
`GetNextUntilLaneEnd_loop_eq` and `GetPreviousUntilLaneStart_loop_eq` prove
that each loop of the source is an instance of it. -/

/-- The candidate is on the lane and road of `self`: the test of the walk. -/
def Waypoint.same_lane (self w : Waypoint) : Bool :=
  decide (w.GetLaneId = self.GetLaneId ∧ w.GetRoadId = self.GetRoadId)

/-- One round of a walk that steps by `step`, the scan in closed form. -/
def Waypoint.walk_round (self : Waypoint) (step : Waypoint → List Waypoint)
    (st : WalkState) : WalkState :=
  let result := st.result ++ st.next.filter self.same_lane
  { result := result
    next :=
      match result.getLast? with
      | some back => step back
      | none => st.next
    isThereNext := st.next.any self.same_lane }

/-- The bounded loop of a walk that steps by `step`. -/
def Waypoint.walk_loop (self : Waypoint) (step : Waypoint → List Waypoint) :
    Nat → WalkState → Option (List Waypoint)
  | 0, _ => none
  | fuel + 1, st =>
    if st.isThereNext then Waypoint.walk_loop self step fuel (self.walk_round step st)
    else some st.result

/-- The state in which a walk that steps by `step` enters its loop. -/
def Waypoint.walk_init (self : Waypoint) (step : Waypoint → List Waypoint) : WalkState :=
  { result := [], next := step self, isThereNext := true }

/-- The network `N` with its `GetNext` primitive replaced by its
`GetPrevious`; every other primitive is kept. -/
def Map.reversed (N : Map) : Map :=
  ⟨{ ComputeTransform := N.GetMap.ComputeTransform
     GetMarkRecord := N.GetMap.GetMarkRecord
     GetNext := N.GetMap.GetPrevious
     GetPrevious := N.GetMap.GetPrevious
     GetRight := N.GetMap.GetRight
     GetLeft := N.GetMap.GetLeft }⟩

/-- The waypoint `w` carried over to the reversed network: same location,
same cached pose and marking pair. -/
def Waypoint.on_reversed (w : Waypoint) : Waypoint :=
  { _parent := w._parent.reversed
    _waypoint := w._waypoint
    _transform := w._transform
    _mark_record := w._mark_record }

end client

/-! ## Example networks -/

namespace example_net

/-- A pose used by the example networks. -/
def origin : road.Transform := ⟨(0, 0, 0), (0, 0, 0)⟩

/-- A marking record whose capability is `Right`. -/
def mark_right : road.RoadInfoMarkRecord := ⟨road.element.LaneChange.Right, 0⟩

/-- A marking record whose capability is `Left`. -/
def mark_left : road.RoadInfoMarkRecord := ⟨road.element.LaneChange.Left, 7⟩

/-- A marking record whose capability value, 5, is none of the four
enumerators and has bit 0, the `Right` bit, set. -/
def mark_five : road.RoadInfoMarkRecord := ⟨5, 0⟩

/-- A marking record whose capability value, 6, is none of the four
enumerators and has bit 1, the `Left` bit, set. -/
def mark_six : road.RoadInfoMarkRecord := ⟨6, 0⟩

/-- A road with one lane `-1` sampled at `s = 0, 10, 20`: the step from
`s = 0` forks into the same lane at `s = 10` and lane `-2`, the step from
`s = 10` reaches `s = 20`, and nothing follows `s = 20`. Lane `-2` lies to
the right of lane `-1`, and nothing lies to its left. -/
def lane_net : client.Map :=
  ⟨{ ComputeTransform := fun _ => origin
     GetMarkRecord := fun w => if w.lane_id = -1 then (some mark_right, none) else (none, none)
     GetNext := fun w _ =>
       if w.s = 0 then [⟨w.road_id, -1, 10⟩, ⟨w.road_id, -2, 10⟩]
       else if w.s = 10 then [⟨w.road_id, -1, 20⟩]
       else []
     GetPrevious := fun w _ =>
       if w.s = 20 then [⟨w.road_id, -1, 10⟩]
       else if w.s = 10 then [⟨w.road_id, -1, 0⟩]
       else []
     GetRight := fun w => if w.lane_id = -1 then some ⟨w.road_id, -2, w.s⟩ else none
     GetLeft := fun _ => none }⟩

/-- The waypoint of `lane_net` on road 7, lane `-1`, at `s = 0`. -/
def start : client.Waypoint := client.Waypoint.ctor lane_net ⟨7, -1, 0⟩

/-- The waypoint of `lane_net` on road 7, lane `-1`, at `s = 20`. -/
def finish : client.Waypoint := client.Waypoint.ctor lane_net ⟨7, -1, 20⟩

/-- A waypoint on lane `-1` whose right record carries the capability value 5
and whose left record is absent. -/
def five_on_right : client.Waypoint :=
  ⟨lane_net, ⟨7, -1, 0⟩, origin, (some mark_five, none)⟩

/-- A waypoint on lane `-1` whose left record carries the capability value 6
and whose right record is absent. -/
def six_on_left : client.Waypoint :=
  ⟨lane_net, ⟨7, -1, 0⟩, origin, (none, some mark_six)⟩

/-- A pose other than `origin`. -/
def elsewhere : road.Transform := ⟨(1, 2, 3), (0, 90, 0)⟩

/-- A network without any connection: no step, no neighbour, no marking. -/
def dead_end_net : client.Map :=
  ⟨{ ComputeTransform := fun _ => elsewhere
     GetMarkRecord := fun _ => (none, none)
     GetNext := fun _ _ => []
     GetPrevious := fun _ _ => []
     GetRight := fun _ => none
     GetLeft := fun _ => none }⟩

/-- A lane of length 40 on which a step of `d` from `s` reaches `s + d` on
the same lane as long as `s + d` is before the end of the lane, and nothing
beyond. -/
def lane40_net : client.Map :=
  ⟨{ ComputeTransform := fun _ => origin
     GetMarkRecord := fun _ => (none, none)
     GetNext := fun w d => if w.s + d < 40 then [⟨w.road_id, w.lane_id, w.s + d⟩] else []
     GetPrevious := fun w d => if 0 ≤ w.s - d then [⟨w.road_id, w.lane_id, w.s - d⟩] else []
     GetRight := fun _ => none
     GetLeft := fun _ => none }⟩

/-- A lane that splits after `s = 0` into two branches that keep the road and
lane id, at `s = 10` and at `s = 12`; the first branch goes on to `s = 20`,
the second to `s = 22`, and both end there. -/
def fork_net : client.Map :=
  ⟨{ ComputeTransform := fun _ => origin
     GetMarkRecord := fun _ => (none, none)
     GetNext := fun w _ =>
       if w.s = 0 then [⟨w.road_id, w.lane_id, 10⟩, ⟨w.road_id, w.lane_id, 12⟩]
       else if w.s = 10 then [⟨w.road_id, w.lane_id, 20⟩]
       else if w.s = 12 then [⟨w.road_id, w.lane_id, 22⟩]
       else []
     GetPrevious := fun w _ =>
       if w.s = 22 then [⟨w.road_id, w.lane_id, 12⟩]
       else if w.s = 20 then [⟨w.road_id, w.lane_id, 10⟩]
       else if w.s = 12 then [⟨w.road_id, w.lane_id, 0⟩]
       else if w.s = 10 then [⟨w.road_id, w.lane_id, 0⟩]
       else []
     GetRight := fun _ => none
     GetLeft := fun _ => none }⟩

/-- A network whose step from a location returns that location again. -/
def self_loop_net : client.Map :=
  ⟨{ ComputeTransform := fun _ => origin
     GetMarkRecord := fun _ => (none, none)
     GetNext := fun w _ => [w]
     GetPrevious := fun w _ => [w]
     GetRight := fun _ => none
     GetLeft := fun _ => none }⟩

end example_net

end carla

namespace carla
namespace client

open road.element

/-! ## Bit algebra of the lane-change values -/

theorem and_Right_cases (x : Nat) : x &&& 1 = 0 ∨ x &&& 1 = 1 := by
  rw [Nat.and_one_is_mod]; omega

theorem and_Left_cases (y : Nat) : y &&& 2 = 0 ∨ y &&& 2 = 2 := by
  have h := Nat.and_two_pow y 1
  simp only [pow_one] at h
  rw [h]
  cases y.testBit 1 <;> simp

/-- The masked combination returned by `GetLaneChange` is one of the four
enumerators, whatever the two values are. -/
theorem mask_or_le (x y : Nat) :
    LaneChange_or (LaneChange_and x LaneChange.Right) (LaneChange_and y LaneChange.Left) ≤ 3 := by
  unfold LaneChange_or LaneChange_and static_cast_uint8 LaneChange.Right LaneChange.Left
  rcases and_Right_cases x with h | h <;> rcases and_Left_cases y with k | k <;>
    rw [h, k] <;> decide

/-- The `Right` bit of the masked combination is bit 0 of the right value. -/
theorem mask_or_HasRight (x y : Nat) :
    LaneChange.HasRight
      (LaneChange_or (LaneChange_and x LaneChange.Right) (LaneChange_and y LaneChange.Left))
      ↔ x &&& 1 = 1 := by
  unfold LaneChange.HasRight LaneChange_or LaneChange_and static_cast_uint8
    LaneChange.Right LaneChange.Left
  rcases and_Right_cases x with h | h <;> rcases and_Left_cases y with k | k <;>
    rw [h, k] <;> decide

/-- The `Left` bit of the masked combination is bit 1 of the left value. -/
theorem mask_or_HasLeft (x y : Nat) :
    LaneChange.HasLeft
      (LaneChange_or (LaneChange_and x LaneChange.Right) (LaneChange_and y LaneChange.Left))
      ↔ y &&& 2 = 2 := by
  unfold LaneChange.HasLeft LaneChange_or LaneChange_and static_cast_uint8
    LaneChange.Right LaneChange.Left
  rcases and_Right_cases x with h | h <;> rcases and_Left_cases y with k | k <;>
    rw [h, k] <;> decide

/-- 32-bit arithmetic does not wrap on a representable value. -/
theorem wrap_int32_of_IsInt32 (x : Int) (h : IsInt32 x) : wrap_int32 x = x := by
  unfold IsInt32 INT32_MIN INT32_MAX at h
  unfold wrap_int32
  omega

/-- On a 32-bit lane id the neighbouring id is the exact `lane_id - 1` or
`lane_id + 1`. -/
theorem neighbour_lane_id_exact (lane_id : Int) (h : IsInt32 lane_id) :
    neighbour_lane_id lane_id = if lane_id > 0 then lane_id - 1 else lane_id + 1 := by
  unfold neighbour_lane_id
  unfold IsInt32 INT32_MIN INT32_MAX at h
  split
  · apply wrap_int32_of_IsInt32; unfold IsInt32 INT32_MIN INT32_MAX; omega
  · apply wrap_int32_of_IsInt32; unfold IsInt32 INT32_MIN INT32_MAX; omega

/-- The `Right` bit of a value is its bit 0. -/
theorem HasRight_iff (c : Nat) : LaneChange.HasRight c ↔ c % 2 = 1 := by
  unfold LaneChange.HasRight LaneChange.Right
  rw [Nat.and_one_is_mod]

/-- The `Left` bit of a value is its bit 1. -/
theorem and_Left_eq (c : Nat) : c &&& 2 = 2 ↔ c / 2 % 2 = 1 := by
  have h := Nat.and_two_pow c 1
  simp only [pow_one] at h
  rw [h, Nat.testBit_to_div_mod]
  simp only [pow_one]
  by_cases hc : c / 2 % 2 = 1
  · simp [hc]
  · simp [hc]

theorem HasLeft_iff (c : Nat) : LaneChange.HasLeft c ↔ c / 2 % 2 = 1 := by
  unfold LaneChange.HasLeft LaneChange.Left
  exact and_Left_eq c

/-- A uint8 value is left unchanged by the cast to the enumeration. -/
theorem static_cast_uint8_of_lt (x : Nat) (h : x < 256) : static_cast_uint8 x = x := by
  unfold static_cast_uint8
  omega

/-- The `Right` bit of the result, in terms of the capability `c` read from a
present right record. -/
theorem right_value_bit (lane_id : Int) (c : Nat) :
    (if lane_id > 0 then swap_right_left c else c) &&& 1 = 1 ↔
      (c = LaneChange.Both ∨ (lane_id ≤ 0 ∧ c = LaneChange.Right) ∨
        (lane_id > 0 ∧ c = LaneChange.Left) ∨
        (¬ LaneChange.IsEnumerator c ∧ LaneChange.HasRight c)) := by
  rw [HasRight_iff, Nat.and_one_is_mod]
  unfold swap_right_left LaneChange.IsEnumerator LaneChange.None LaneChange.Right
    LaneChange.Left LaneChange.Both
  split_ifs <;> first | omega | (simp only [false_iff, true_iff]; omega)

/-- The `Left` bit of the result, in terms of the capability `c` read from a
present left record and the neighbouring lane id `n`. -/
theorem left_value_bit (n : Int) (c : Nat) :
    (if n > 0 then swap_right_left c else c) &&& 2 = 2 ↔
      (c = LaneChange.Both ∨ (n ≤ 0 ∧ c = LaneChange.Left) ∨
        (n > 0 ∧ c = LaneChange.Right) ∨
        (¬ LaneChange.IsEnumerator c ∧ LaneChange.HasLeft c)) := by
  rw [HasLeft_iff, and_Left_eq]
  unfold swap_right_left LaneChange.IsEnumerator LaneChange.None LaneChange.Right
    LaneChange.Left LaneChange.Both
  split_ifs <;> first | omega | (simp only [false_iff, true_iff]; omega)

/-- C1, as amended: for every marking pair and every lane id, the `Right`
bit of `GetLaneChange()` is set exactly when the right record is absent, or
its capability is `Both`, or `lane_id <= 0` and it is `Right`, or
`lane_id > 0` and it is `Left`, or its capability is none of the four
enumerators and has the `Right` bit set. When the capability is one of the
four enumerators the last case does not arise. Two waypoints with the same
lane id and the same right record agree on the `Right` bit, whatever their
left records. The capability is the value the code reads, the record's
value cast to the enumeration. -/
theorem C1_right_bit (w : Waypoint) :
    (LaneChange.HasRight w.GetLaneChange ↔
      (w._mark_record.1 = none ∨
        ∃ r, w._mark_record.1 = some r ∧
          (static_cast_uint8 r.GetLaneChange = LaneChange.Both ∨
            (w._waypoint.lane_id ≤ 0 ∧
              static_cast_uint8 r.GetLaneChange = LaneChange.Right) ∨
            (w._waypoint.lane_id > 0 ∧
              static_cast_uint8 r.GetLaneChange = LaneChange.Left) ∨
            (¬ LaneChange.IsEnumerator (static_cast_uint8 r.GetLaneChange) ∧
              LaneChange.HasRight (static_cast_uint8 r.GetLaneChange))))) ∧
    (∀ r, w._mark_record.1 = some r → LaneChange.IsEnumerator r.lane_change →
      (LaneChange.HasRight w.GetLaneChange ↔
        (r.lane_change = LaneChange.Both ∨
          (w._waypoint.lane_id ≤ 0 ∧ r.lane_change = LaneChange.Right) ∨
          (w._waypoint.lane_id > 0 ∧ r.lane_change = LaneChange.Left)))) ∧
    (∀ w2 : Waypoint, w2._waypoint.lane_id = w._waypoint.lane_id →
      w2._mark_record.1 = w._mark_record.1 →
      (LaneChange.HasRight w2.GetLaneChange ↔ LaneChange.HasRight w.GetLaneChange)) := by
  have hbit : ∀ r, w._mark_record.1 = some r →
      (LaneChange.HasRight w.GetLaneChange ↔
        (if w._waypoint.lane_id > 0 then swap_right_left (static_cast_uint8 r.GetLaneChange)
          else static_cast_uint8 r.GetLaneChange) &&& 1 = 1) := by
    intro r hr
    unfold Waypoint.GetLaneChange
    rw [mask_or_HasRight, hr]
  refine ⟨?_, ?_, ?_⟩
  · rcases hr : w._mark_record.1 with _ | r
    · unfold Waypoint.GetLaneChange
      rw [mask_or_HasRight, hr]
      by_cases hl : w._waypoint.lane_id > 0 <;>
        simp [hl, swap_right_left, LaneChange.Both, LaneChange.Right, LaneChange.Left]
    · rw [hbit r hr, right_value_bit]
      simp
  · intro r hr he
    rw [hbit r hr, right_value_bit]
    have hc : static_cast_uint8 r.GetLaneChange = r.lane_change := by
      apply static_cast_uint8_of_lt
      unfold LaneChange.IsEnumerator LaneChange.None LaneChange.Right LaneChange.Left
        LaneChange.Both at he
      unfold road.RoadInfoMarkRecord.GetLaneChange
      omega
    rw [hc]
    constructor
    · rintro (h1 | h1 | h1 | h1)
      · exact Or.inl h1
      · exact Or.inr (Or.inl h1)
      · exact Or.inr (Or.inr h1)
      · exact absurd he h1.1
    · rintro (h1 | h1 | h1)
      · exact Or.inl h1
      · exact Or.inr (Or.inl h1)
      · exact Or.inr (Or.inr (Or.inl h1))
  · intro w2 hlane hrec
    unfold Waypoint.GetLaneChange
    rw [mask_or_HasRight, mask_or_HasRight, hlane, hrec]

/-- Witness of C1: the start of the example lane, right record `Right` on
lane `-1`, has the `Right` bit set. -/
theorem C1_right_bit_witness :
    LaneChange.HasRight example_net.start.GetLaneChange ∧
      example_net.start._mark_record.1 = some example_net.mark_right :=
  ⟨((C1_right_bit example_net.start).2.1 example_net.mark_right rfl (by decide)).2
      (Or.inr (Or.inl ⟨by decide, rfl⟩)),
   rfl⟩

/-- C1 as stated fails: on lane `-1` with a right record of capability value
5 the `Right` bit of `GetLaneChange()` is set (`5 & 1 = 1`), although the
record is present and its capability is none of `Both`, `Right`, `Left`. -/
theorem C1_right_bit_counterexample :
    ¬ (LaneChange.HasRight example_net.five_on_right.GetLaneChange ↔
      (example_net.five_on_right._mark_record.1 = none ∨
        ∃ r, example_net.five_on_right._mark_record.1 = some r ∧
          (r.lane_change = LaneChange.Both ∨
            (example_net.five_on_right._waypoint.lane_id ≤ 0 ∧
              r.lane_change = LaneChange.Right) ∨
            (example_net.five_on_right._waypoint.lane_id > 0 ∧
              r.lane_change = LaneChange.Left)))) := by
  intro h
  have hset : LaneChange.HasRight example_net.five_on_right.GetLaneChange := by decide
  rcases h.mp hset with h1 | ⟨r, hr, h2⟩
  · cases h1
  · have hr1 : some example_net.mark_five = some r := hr
    have hr2 : r = example_net.mark_five := (Option.some.inj hr1).symm
    subst hr2
    rcases h2 with h3 | ⟨_, h3⟩ | ⟨_, h3⟩ <;> revert h3 <;> decide

/-- C2, as amended: with `n = lane_id - 1` if `lane_id > 0` else
`lane_id + 1`, for every marking pair and every 32-bit lane id, the `Left`
bit of `GetLaneChange()` is set exactly when the left record is absent, or
its capability is `Both`, or `n <= 0` and it is `Left`, or `n > 0` and it is
`Right`, or its capability is none of the four enumerators and has the
`Left` bit set. When the capability is one of the four enumerators the last
case does not arise. Two waypoints with the same lane id and the same left
record agree on the `Left` bit, whatever their right records. The
capability is the value the code reads, the record's value cast to the
enumeration. -/
theorem C2_left_bit (w : Waypoint) (n : Int)
    (hid : IsInt32 w._waypoint.lane_id)
    (hn : n = if w._waypoint.lane_id > 0 then w._waypoint.lane_id - 1
      else w._waypoint.lane_id + 1) :
    (LaneChange.HasLeft w.GetLaneChange ↔
      (w._mark_record.2 = none ∨
        ∃ r, w._mark_record.2 = some r ∧
          (static_cast_uint8 r.GetLaneChange = LaneChange.Both ∨
            (n ≤ 0 ∧ static_cast_uint8 r.GetLaneChange = LaneChange.Left) ∨
            (n > 0 ∧ static_cast_uint8 r.GetLaneChange = LaneChange.Right) ∨
            (¬ LaneChange.IsEnumerator (static_cast_uint8 r.GetLaneChange) ∧
              LaneChange.HasLeft (static_cast_uint8 r.GetLaneChange))))) ∧
    (∀ r, w._mark_record.2 = some r → LaneChange.IsEnumerator r.lane_change →
      (LaneChange.HasLeft w.GetLaneChange ↔
        (r.lane_change = LaneChange.Both ∨
          (n ≤ 0 ∧ r.lane_change = LaneChange.Left) ∨
          (n > 0 ∧ r.lane_change = LaneChange.Right)))) ∧
    (∀ w2 : Waypoint, w2._waypoint.lane_id = w._waypoint.lane_id →
      w2._mark_record.2 = w._mark_record.2 →
      (LaneChange.HasLeft w2.GetLaneChange ↔ LaneChange.HasLeft w.GetLaneChange)) := by
  have hbit : ∀ r, w._mark_record.2 = some r →
      (LaneChange.HasLeft w.GetLaneChange ↔
        (if n > 0 then swap_right_left (static_cast_uint8 r.GetLaneChange)
          else static_cast_uint8 r.GetLaneChange) &&& 2 = 2) := by
    intro r hr
    unfold Waypoint.GetLaneChange
    rw [mask_or_HasLeft, neighbour_lane_id_exact _ hid, ← hn, hr]
  refine ⟨?_, ?_, ?_⟩
  · rcases hr : w._mark_record.2 with _ | r
    · unfold Waypoint.GetLaneChange
      rw [mask_or_HasLeft, neighbour_lane_id_exact _ hid, ← hn, hr]
      by_cases hl : n > 0 <;>
        simp [hl, swap_right_left, LaneChange.Both, LaneChange.Right, LaneChange.Left,
          (by decide : 3 &&& 2 = 2)]
    · rw [hbit r hr, left_value_bit]
      simp
  · intro r hr he
    rw [hbit r hr, left_value_bit]
    have hc : static_cast_uint8 r.GetLaneChange = r.lane_change := by
      apply static_cast_uint8_of_lt
      unfold LaneChange.IsEnumerator LaneChange.None LaneChange.Right LaneChange.Left
        LaneChange.Both at he
      unfold road.RoadInfoMarkRecord.GetLaneChange
      omega
    rw [hc]
    constructor
    · rintro (h1 | h1 | h1 | h1)
      · exact Or.inl h1
      · exact Or.inr (Or.inl h1)
      · exact Or.inr (Or.inr h1)
      · exact absurd he h1.1
    · rintro (h1 | h1 | h1)
      · exact Or.inl h1
      · exact Or.inr (Or.inl h1)
      · exact Or.inr (Or.inr (Or.inl h1))
  · intro w2 hlane hrec
    unfold Waypoint.GetLaneChange
    rw [mask_or_HasLeft, mask_or_HasLeft, hlane, hrec]

/-- Witness of C2: a waypoint on lane `2`, so `n = 1`, whose left record has
capability `Right`. -/
theorem C2_left_bit_witness :
    LaneChange.HasLeft
      (Waypoint.GetLaneChange ⟨example_net.lane_net, ⟨7, 2, 0⟩, example_net.origin,
        (none, some example_net.mark_right)⟩) :=
  ((C2_left_bit ⟨example_net.lane_net, ⟨7, 2, 0⟩, example_net.origin,
      (none, some example_net.mark_right)⟩ 1 (by decide) (by decide)).2.1
    example_net.mark_right rfl (by decide)).2 (Or.inr (Or.inr ⟨by decide, rfl⟩))

/-- C2 as stated fails: on lane `-1`, where `n = 0`, with a left record of
capability value 6 the `Left` bit of `GetLaneChange()` is set (`6 & 2 = 2`),
although the record is present and its capability is none of `Both`,
`Left`, `Right`. -/
theorem C2_left_bit_counterexample :
    ¬ (LaneChange.HasLeft example_net.six_on_left.GetLaneChange ↔
      (example_net.six_on_left._mark_record.2 = none ∨
        ∃ r, example_net.six_on_left._mark_record.2 = some r ∧
          (r.lane_change = LaneChange.Both ∨
            ((if example_net.six_on_left._waypoint.lane_id > 0 then
                example_net.six_on_left._waypoint.lane_id - 1
              else example_net.six_on_left._waypoint.lane_id + 1) ≤ 0 ∧
              r.lane_change = LaneChange.Left) ∨
            ((if example_net.six_on_left._waypoint.lane_id > 0 then
                example_net.six_on_left._waypoint.lane_id - 1
              else example_net.six_on_left._waypoint.lane_id + 1) > 0 ∧
              r.lane_change = LaneChange.Right)))) := by
  intro h
  have hset : LaneChange.HasLeft example_net.six_on_left.GetLaneChange := by decide
  rcases h.mp hset with h1 | ⟨r, hr, h2⟩
  · cases h1
  · have hr1 : some example_net.mark_six = some r := hr
    have hr2 : r = example_net.mark_six := (Option.some.inj hr1).symm
    subst hr2
    rcases h2 with h3 | ⟨_, h3⟩ | ⟨_, h3⟩ <;> revert h3 <;> decide

/-- C3: an absent right record gives the result of a right record whose
capability is `Both`, on waypoints with the same lane id and the same left
record `X`; and an absent left record gives the result of a left record
whose capability is `Both`, on waypoints with the same lane id and the same
right record `X`. -/
theorem C3_absent_as_Both (w1 w2 : Waypoint) (X : Option road.RoadInfoMarkRecord)
    (r : road.RoadInfoMarkRecord)
    (hlane : w1._waypoint.lane_id = w2._waypoint.lane_id)
    (hr : r.lane_change = LaneChange.Both) :
    (w1._mark_record = (none, X) → w2._mark_record = (some r, X) →
      w1.GetLaneChange = w2.GetLaneChange) ∧
    (w1._mark_record = (X, none) → w2._mark_record = (X, some r) →
      w1.GetLaneChange = w2.GetLaneChange) := by
  constructor <;>
  · intro h1 h2
    unfold Waypoint.GetLaneChange
    rw [h1, h2, hlane]
    simp [road.RoadInfoMarkRecord.GetLaneChange, hr, static_cast_uint8, LaneChange.Both]

/-- Witness of C3: lane `3` with pair `(empty, Left)` against pair
`(Both, Left)` on another road, and pair `(Left, empty)` against
`(Left, Both)`. -/
theorem C3_absent_as_Both_witness :
    Waypoint.GetLaneChange ⟨example_net.lane_net, ⟨7, 3, 0⟩, example_net.origin,
        (none, some example_net.mark_left)⟩ =
      Waypoint.GetLaneChange ⟨example_net.lane_net, ⟨8, 3, 5⟩, example_net.origin,
        (some ⟨LaneChange.Both, 1⟩, some example_net.mark_left)⟩ ∧
    Waypoint.GetLaneChange ⟨example_net.lane_net, ⟨7, 3, 0⟩, example_net.origin,
        (some example_net.mark_left, none)⟩ =
      Waypoint.GetLaneChange ⟨example_net.lane_net, ⟨8, 3, 5⟩, example_net.origin,
        (some example_net.mark_left, some ⟨LaneChange.Both, 1⟩)⟩ :=
  ⟨(C3_absent_as_Both
      ⟨example_net.lane_net, ⟨7, 3, 0⟩, example_net.origin, (none, some example_net.mark_left)⟩
      ⟨example_net.lane_net, ⟨8, 3, 5⟩, example_net.origin,
        (some ⟨LaneChange.Both, 1⟩, some example_net.mark_left)⟩
      (some example_net.mark_left) ⟨LaneChange.Both, 1⟩ rfl rfl).1 rfl rfl,
   (C3_absent_as_Both
      ⟨example_net.lane_net, ⟨7, 3, 0⟩, example_net.origin, (some example_net.mark_left, none)⟩
      ⟨example_net.lane_net, ⟨8, 3, 5⟩, example_net.origin,
        (some example_net.mark_left, some ⟨LaneChange.Both, 1⟩)⟩
      (some example_net.mark_left) ⟨LaneChange.Both, 1⟩ rfl rfl).2 rfl rfl⟩

/-- C4: of two waypoints whose right record has capability `Right`, with
the same left record, one on lane `-k` and one on lane `+k` for `k > 0`, the
negative-lane one has the `Right` bit set, the positive-lane one has it
cleared, and so their `GetLaneChange()` results differ. -/
theorem C4_direction_normalization (k : Int) (hk : k > 0)
    (X : Option road.RoadInfoMarkRecord) (w_neg w_pos : Waypoint)
    (r_neg r_pos : road.RoadInfoMarkRecord)
    (hr_neg : r_neg.lane_change = LaneChange.Right)
    (hr_pos : r_pos.lane_change = LaneChange.Right)
    (hm_neg : w_neg._mark_record = (some r_neg, X))
    (hm_pos : w_pos._mark_record = (some r_pos, X))
    (hl_neg : w_neg._waypoint.lane_id = -k)
    (hl_pos : w_pos._waypoint.lane_id = k) :
    w_neg.GetLaneChange ≠ w_pos.GetLaneChange ∧
      LaneChange.HasRight w_neg.GetLaneChange ∧
      ¬ LaneChange.HasRight w_pos.GetLaneChange := by
  have hneg : LaneChange.HasRight w_neg.GetLaneChange := by
    unfold Waypoint.GetLaneChange
    rw [mask_or_HasRight, hm_neg, hl_neg]
    have : ¬ (-k > 0) := by omega
    simp [this, road.RoadInfoMarkRecord.GetLaneChange, hr_neg, static_cast_uint8,
      LaneChange.Right]
  have hpos : ¬ LaneChange.HasRight w_pos.GetLaneChange := by
    unfold Waypoint.GetLaneChange
    rw [mask_or_HasRight, hm_pos, hl_pos]
    simp [hk, road.RoadInfoMarkRecord.GetLaneChange, hr_pos, static_cast_uint8,
      LaneChange.Right, LaneChange.Left, swap_right_left]
  refine ⟨?_, hneg, hpos⟩
  intro heq
  rw [heq] at hneg
  exact hpos hneg

/-- Witness of C4: lanes `-2` and `2`, right record `Right`, left record
`Left`. -/
theorem C4_direction_normalization_witness :
    Waypoint.GetLaneChange ⟨example_net.lane_net, ⟨7, -2, 0⟩, example_net.origin,
        (some example_net.mark_right, some example_net.mark_left)⟩ ≠
      Waypoint.GetLaneChange ⟨example_net.lane_net, ⟨7, 2, 0⟩, example_net.origin,
        (some example_net.mark_right, some example_net.mark_left)⟩ :=
  (C4_direction_normalization 2 (by decide) (some example_net.mark_left)
    ⟨example_net.lane_net, ⟨7, -2, 0⟩, example_net.origin,
      (some example_net.mark_right, some example_net.mark_left)⟩
    ⟨example_net.lane_net, ⟨7, 2, 0⟩, example_net.origin,
      (some example_net.mark_right, some example_net.mark_left)⟩
    example_net.mark_right example_net.mark_right rfl rfl rfl rfl rfl rfl).1

/-- C5: `GetLaneChange()` is total and its value is one of `None`, `Right`,
`Left`, `Both`, for every waypoint: each side of the marking pair present or
absent, a present record carrying any capability value at all. -/
theorem C5_total_four_values (w : Waypoint) :
    ∃ v, w.GetLaneChange = v ∧ LaneChange.IsEnumerator v := by
  refine ⟨w.GetLaneChange, rfl, ?_⟩
  have h : w.GetLaneChange ≤ 3 := by
    unfold Waypoint.GetLaneChange
    exact mask_or_le _ _
  unfold LaneChange.IsEnumerator LaneChange.None LaneChange.Right LaneChange.Left
    LaneChange.Both
  omega

/-- C6: two waypoints with the same lane id and the same capabilities on
both sides (same presence or absence) have the same `GetLaneChange()`,
whatever their road, offset, pose, network and the other attributes of their
records. -/
theorem C6_depends_on_pair_and_lane (w1 w2 : Waypoint)
    (hlane : w1._waypoint.lane_id = w2._waypoint.lane_id)
    (hright : w1._mark_record.1.map road.RoadInfoMarkRecord.GetLaneChange =
      w2._mark_record.1.map road.RoadInfoMarkRecord.GetLaneChange)
    (hleft : w1._mark_record.2.map road.RoadInfoMarkRecord.GetLaneChange =
      w2._mark_record.2.map road.RoadInfoMarkRecord.GetLaneChange) :
    w1.GetLaneChange = w2.GetLaneChange := by
  unfold Waypoint.GetLaneChange
  rw [hlane]
  rcases h1 : w1._mark_record.1 with _ | a1 <;>
    rcases h2 : w2._mark_record.1 with _ | a2 <;>
    rcases h3 : w1._mark_record.2 with _ | b1 <;>
    rcases h4 : w2._mark_record.2 with _ | b2 <;>
    simp_all

/-- Witness of C6: two waypoints on lane `-1` with pair `(Right, empty)`, on
different roads, offsets, poses and networks, their right records differing
in the other attributes. -/
theorem C6_depends_on_pair_and_lane_witness :
    Waypoint.GetLaneChange ⟨example_net.lane_net, ⟨7, -1, 0⟩, example_net.origin,
        (some ⟨LaneChange.Right, 0⟩, none)⟩ =
      Waypoint.GetLaneChange ⟨example_net.dead_end_net, ⟨9, -1, 33⟩, example_net.elsewhere,
        (some ⟨LaneChange.Right, 5⟩, none)⟩ :=
  C6_depends_on_pair_and_lane
    ⟨example_net.lane_net, ⟨7, -1, 0⟩, example_net.origin, (some ⟨LaneChange.Right, 0⟩, none)⟩
    ⟨example_net.dead_end_net, ⟨9, -1, 33⟩, example_net.elsewhere,
      (some ⟨LaneChange.Right, 5⟩, none)⟩
    rfl rfl rfl

/-! ## Single steps and lateral neighbours -/

theorem foldl_emplace_back (parent : Map) (waypoints : List road.element.Waypoint)
    (result : List Waypoint) :
    waypoints.foldl (fun result waypoint => result ++ [Waypoint.ctor parent waypoint]) result
      = result ++ waypoints.map (Waypoint.ctor parent) := by
  induction waypoints generalizing result with
  | nil => simp
  | cons a t ih => simp [ih]

/-- The wrapping loop is the map of the constructor over the locations. -/
theorem wrap_all_eq_map (parent : Map) (waypoints : List road.element.Waypoint) :
    Waypoint.wrap_all parent waypoints = waypoints.map (Waypoint.ctor parent) := by
  unfold Waypoint.wrap_all
  rw [foldl_emplace_back]
  simp

/-- C7: `GetNext(d)` has the length of `RoadNetwork.GetNext(w.location, d)`
and its `i`-th element is the waypoint constructed from the `i`-th returned
location on the network of `w`: it has that location and that network.
`GetPrevious(d)` relates in the same way to `RoadNetwork.GetPrevious`. -/
theorem C7_single_step (w : Waypoint) (d : ℚ) :
    ((w.GetNext d).length = (w._parent.GetMap.GetNext w._waypoint d).length ∧
      w.GetNext d = (w._parent.GetMap.GetNext w._waypoint d).map (Waypoint.ctor w._parent) ∧
      (w.GetNext d).map (fun x => x._waypoint) = w._parent.GetMap.GetNext w._waypoint d ∧
      (w.GetNext d).map (fun x => x._parent) =
        (w._parent.GetMap.GetNext w._waypoint d).map (fun _ => w._parent)) ∧
    ((w.GetPrevious d).length = (w._parent.GetMap.GetPrevious w._waypoint d).length ∧
      w.GetPrevious d =
        (w._parent.GetMap.GetPrevious w._waypoint d).map (Waypoint.ctor w._parent) ∧
      (w.GetPrevious d).map (fun x => x._waypoint) =
        w._parent.GetMap.GetPrevious w._waypoint d ∧
      (w.GetPrevious d).map (fun x => x._parent) =
        (w._parent.GetMap.GetPrevious w._waypoint d).map (fun _ => w._parent)) := by
  have hn : w.GetNext d =
      (w._parent.GetMap.GetNext w._waypoint d).map (Waypoint.ctor w._parent) := by
    unfold Waypoint.GetNext; exact wrap_all_eq_map _ _
  have hp : w.GetPrevious d =
      (w._parent.GetMap.GetPrevious w._waypoint d).map (Waypoint.ctor w._parent) := by
    unfold Waypoint.GetPrevious; exact wrap_all_eq_map _ _
  refine ⟨⟨?_, hn, ?_, ?_⟩, ⟨?_, hp, ?_, ?_⟩⟩
  · rw [hn, List.length_map]
  · rw [hn, List.map_map]
    exact List.map_id _
  · rw [hn, List.map_map]
    rfl
  · rw [hp, List.length_map]
  · rw [hp, List.map_map]
    exact List.map_id _
  · rw [hp, List.map_map]
    rfl

/-- C8: `GetRight()` is null exactly when `RoadNetwork.GetRight(w.location)`
is empty, and otherwise it is the waypoint constructed from the returned
location on the network of `w`, with exactly that location and that
network. The same holds for `GetLeft()` with `RoadNetwork.GetLeft`. -/
theorem C8_lateral_neighbour (w : Waypoint) :
    ((w.GetRight = none ↔ w._parent.GetMap.GetRight w._waypoint = none) ∧
      w.GetRight = (w._parent.GetMap.GetRight w._waypoint).map (Waypoint.ctor w._parent) ∧
      w.GetRight.map (fun x => x._waypoint) = w._parent.GetMap.GetRight w._waypoint ∧
      w.GetRight.map (fun x => x._parent) =
        (w._parent.GetMap.GetRight w._waypoint).map (fun _ => w._parent)) ∧
    ((w.GetLeft = none ↔ w._parent.GetMap.GetLeft w._waypoint = none) ∧
      w.GetLeft = (w._parent.GetMap.GetLeft w._waypoint).map (Waypoint.ctor w._parent) ∧
      w.GetLeft.map (fun x => x._waypoint) = w._parent.GetMap.GetLeft w._waypoint ∧
      w.GetLeft.map (fun x => x._parent) =
        (w._parent.GetMap.GetLeft w._waypoint).map (fun _ => w._parent)) := by
  unfold Waypoint.GetRight Waypoint.GetLeft
  constructor
  · cases w._parent.GetMap.GetRight w._waypoint <;> simp [Waypoint.ctor]
  · cases w._parent.GetMap.GetLeft w._waypoint <;> simp [Waypoint.ctor]

/-! ## The lane walk: the loops of the source and their common shape -/

/-- The scan of `GetNextUntilLaneEnd` appends the candidates on the lane of
`self`, in order, and raises the flag when there is one. -/
theorem foldl_visit (self : Waypoint) (next : List Waypoint) (acc : List Waypoint × Bool) :
    next.foldl self.GetNextUntilLaneEnd_visit acc =
      (acc.1 ++ next.filter self.same_lane, acc.2 || next.any self.same_lane) := by
  induction next generalizing acc with
  | nil => simp
  | cons a t ih =>
    rw [List.foldl_cons, ih]
    unfold Waypoint.GetNextUntilLaneEnd_visit
    by_cases h : a.GetLaneId = self.GetLaneId ∧ a.GetRoadId = self.GetRoadId
    · have hs : self.same_lane a = true := by simp [Waypoint.same_lane, h]
      simp [h, hs]
    · have hs : self.same_lane a = false := by simp [Waypoint.same_lane, h]
      simp [h, hs]

/-- The two scans are the same function. -/
theorem visit_eq (self : Waypoint) :
    self.GetPreviousUntilLaneStart_visit = self.GetNextUntilLaneEnd_visit := rfl

theorem GetNextUntilLaneEnd_round_eq (self : Waypoint) (d : ℚ) (st : WalkState) :
    self.GetNextUntilLaneEnd_round d st = self.walk_round (fun w => w.GetNext d) st := by
  unfold Waypoint.GetNextUntilLaneEnd_round Waypoint.walk_round
  simp [foldl_visit]

theorem GetPreviousUntilLaneStart_round_eq (self : Waypoint) (d : ℚ) (st : WalkState) :
    self.GetPreviousUntilLaneStart_round d st =
      self.walk_round (fun w => w.GetPrevious d) st := by
  unfold Waypoint.GetPreviousUntilLaneStart_round Waypoint.walk_round
  simp [visit_eq, foldl_visit]

/-- The loop of `GetNextUntilLaneEnd` is the common loop stepping by
`GetNext`. -/
theorem GetNextUntilLaneEnd_loop_eq (self : Waypoint) (d : ℚ) (fuel : Nat) (st : WalkState) :
    self.GetNextUntilLaneEnd_loop d fuel st = self.walk_loop (fun w => w.GetNext d) fuel st := by
  induction fuel generalizing st with
  | zero => rfl
  | succ n ih =>
    unfold Waypoint.GetNextUntilLaneEnd_loop Waypoint.walk_loop
    rw [ih, GetNextUntilLaneEnd_round_eq]

/-- The loop of `GetPreviousUntilLaneStart` is the common loop stepping by
`GetPrevious`. -/
theorem GetPreviousUntilLaneStart_loop_eq (self : Waypoint) (d : ℚ) (fuel : Nat)
    (st : WalkState) :
    self.GetPreviousUntilLaneStart_loop d fuel st =
      self.walk_loop (fun w => w.GetPrevious d) fuel st := by
  induction fuel generalizing st with
  | zero => rfl
  | succ n ih =>
    unfold Waypoint.GetPreviousUntilLaneStart_loop Waypoint.walk_loop
    rw [ih, GetPreviousUntilLaneStart_round_eq]

theorem GetNextUntilLaneEnd_eq_walk (self : Waypoint) (d : ℚ) (fuel : Nat) :
    self.GetNextUntilLaneEnd d fuel =
      self.walk_loop (fun w => w.GetNext d) fuel (self.walk_init (fun w => w.GetNext d)) := by
  unfold Waypoint.GetNextUntilLaneEnd Waypoint.walk_init
  exact GetNextUntilLaneEnd_loop_eq _ _ _ _

theorem GetPreviousUntilLaneStart_eq_walk (self : Waypoint) (d : ℚ) (fuel : Nat) :
    self.GetPreviousUntilLaneStart d fuel =
      self.walk_loop (fun w => w.GetPrevious d) fuel
        (self.walk_init (fun w => w.GetPrevious d)) := by
  unfold Waypoint.GetPreviousUntilLaneStart Waypoint.walk_init
  exact GetPreviousUntilLaneStart_loop_eq _ _ _ _

/-- A result of the loop extends the result it was entered with. -/
theorem walk_loop_extends (self : Waypoint) (step : Waypoint → List Waypoint) (fuel : Nat)
    (st : WalkState) (r : List Waypoint) (h : self.walk_loop step fuel st = some r) :
    st.result <+: r := by
  induction fuel generalizing st with
  | zero => simp [Waypoint.walk_loop] at h
  | succ n ih =>
    unfold Waypoint.walk_loop at h
    by_cases hb : st.isThereNext = true
    · rw [if_pos hb] at h
      have h1 := ih _ h
      have h2 : st.result <+: (self.walk_round step st).result := by
        unfold Waypoint.walk_round
        exact List.prefix_append _ _
      exact h2.trans h1
    · rw [if_neg hb] at h
      cases h
      exact List.prefix_refl _

/-- The invariant of a walk whose step stays on the network of `self`: the
accumulated waypoints are on the road, lane and network of `self`, and the
frontier is on the network of `self`. -/
theorem walk_loop_on_lane (self : Waypoint) (step : Waypoint → List Waypoint)
    (hstep : ∀ w x, x ∈ step w → x._parent = w._parent)
    (fuel : Nat) (st : WalkState) (r : List Waypoint)
    (hres : ∀ x ∈ st.result, x.GetRoadId = self.GetRoadId ∧ x.GetLaneId = self.GetLaneId ∧
      x._parent = self._parent)
    (hnext : ∀ x ∈ st.next, x._parent = self._parent)
    (h : self.walk_loop step fuel st = some r) :
    ∀ x ∈ r, x.GetRoadId = self.GetRoadId ∧ x.GetLaneId = self.GetLaneId ∧
      x._parent = self._parent := by
  induction fuel generalizing st with
  | zero => simp [Waypoint.walk_loop] at h
  | succ n ih =>
    unfold Waypoint.walk_loop at h
    by_cases hb : st.isThereNext = true
    · rw [if_pos hb] at h
      have hres2 : ∀ x ∈ (self.walk_round step st).result,
          x.GetRoadId = self.GetRoadId ∧ x.GetLaneId = self.GetLaneId ∧
            x._parent = self._parent := by
        intro x hx
        unfold Waypoint.walk_round at hx
        rcases List.mem_append.mp hx with hx | hx
        · exact hres x hx
        · rcases List.mem_filter.mp hx with ⟨hx1, hx2⟩
          simp only [Waypoint.same_lane, decide_eq_true_eq] at hx2
          exact ⟨hx2.2, hx2.1, hnext x hx1⟩
      have hnext2 : ∀ x ∈ (self.walk_round step st).next, x._parent = self._parent := by
        intro x hx
        have hx2 : x ∈ (match (self.walk_round step st).result.getLast? with
            | some back => step back
            | none => st.next) := hx
        rcases hl : (self.walk_round step st).result.getLast? with _ | back
        · rw [hl] at hx2
          exact hnext x hx2
        · rw [hl] at hx2
          rw [hstep back x hx2]
          exact (hres2 back (List.mem_of_getLast?_eq_some hl)).2.2
      exact ih _ hres2 hnext2 h
    · rw [if_neg hb] at h
      cases h
      exact hres

theorem GetNext_parent (d : ℚ) (w x : Waypoint) (hx : x ∈ w.GetNext d) :
    x._parent = w._parent := by
  unfold Waypoint.GetNext at hx
  rw [wrap_all_eq_map] at hx
  rcases List.mem_map.mp hx with ⟨l, _, rfl⟩
  rfl

theorem GetPrevious_parent (d : ℚ) (w x : Waypoint) (hx : x ∈ w.GetPrevious d) :
    x._parent = w._parent := by
  unfold Waypoint.GetPrevious at hx
  rw [wrap_all_eq_map] at hx
  rcases List.mem_map.mp hx with ⟨l, _, rfl⟩
  rfl

/-- C9: when `GetNextUntilLaneEnd(d)` terminates (the loop exits within
`fuel` tests and returns `r`), every waypoint of the result has the road id
and the lane id of `w`, the waypoint the walk started from, and the network
of `w`; the same holds for `GetPreviousUntilLaneStart(d)`. -/
theorem C9_lane_identity (w : Waypoint) (d : ℚ) (fuel : Nat) (r : List Waypoint) :
    (w.GetNextUntilLaneEnd d fuel = some r →
      ∀ x ∈ r, x.GetRoadId = w.GetRoadId ∧ x.GetLaneId = w.GetLaneId ∧
        x._parent = w._parent) ∧
    (w.GetPreviousUntilLaneStart d fuel = some r →
      ∀ x ∈ r, x.GetRoadId = w.GetRoadId ∧ x.GetLaneId = w.GetLaneId ∧
        x._parent = w._parent) := by
  constructor
  · intro h
    rw [GetNextUntilLaneEnd_eq_walk] at h
    refine walk_loop_on_lane w _ (GetNext_parent d) fuel _ r ?_ ?_ h
    · intro x hx
      simp [Waypoint.walk_init] at hx
    · intro x hx
      exact GetNext_parent d w x hx
  · intro h
    rw [GetPreviousUntilLaneStart_eq_walk] at h
    refine walk_loop_on_lane w _ (GetPrevious_parent d) fuel _ r ?_ ?_ h
    · intro x hx
      simp [Waypoint.walk_init] at hx
    · intro x hx
      exact GetPrevious_parent d w x hx

/-- Witness of C9: on the example lane the forward walk from `s = 0` returns
the waypoints at `s = 10, 20` and the backward walk from `s = 20` returns
those at `s = 10, 0`; all are on road 7, lane `-1`, of the same network. -/
theorem C9_lane_identity_witness :
    (example_net.start.GetNextUntilLaneEnd 10 4 =
        some [Waypoint.ctor example_net.lane_net ⟨7, -1, 10⟩,
          Waypoint.ctor example_net.lane_net ⟨7, -1, 20⟩] ∧
      ∀ x ∈ [Waypoint.ctor example_net.lane_net ⟨7, -1, 10⟩,
          Waypoint.ctor example_net.lane_net ⟨7, -1, 20⟩],
        x.GetRoadId = example_net.start.GetRoadId ∧
          x.GetLaneId = example_net.start.GetLaneId ∧
          x._parent = example_net.start._parent) ∧
    (example_net.finish.GetPreviousUntilLaneStart 10 4 =
        some [Waypoint.ctor example_net.lane_net ⟨7, -1, 10⟩,
          Waypoint.ctor example_net.lane_net ⟨7, -1, 0⟩] ∧
      ∀ x ∈ [Waypoint.ctor example_net.lane_net ⟨7, -1, 10⟩,
          Waypoint.ctor example_net.lane_net ⟨7, -1, 0⟩],
        x.GetRoadId = example_net.finish.GetRoadId ∧
          x.GetLaneId = example_net.finish.GetLaneId ∧
          x._parent = example_net.finish._parent) :=
  ⟨⟨rfl, (C9_lane_identity example_net.start 10 4 _).1 rfl⟩,
   ⟨rfl, (C9_lane_identity example_net.finish 10 4 _).2 rfl⟩⟩

/-- C10: the candidates of `w.GetNext(d)` on the road and lane of `w`, in
the order of `GetNext`, are exactly what the first round of
`GetNextUntilLaneEnd(d)` puts into `result`, and they are an initial segment
of the result `r` of a terminating walk. -/
theorem C10_seed (w : Waypoint) (d : ℚ) (fuel : Nat) (r : List Waypoint)
    (h : w.GetNextUntilLaneEnd d fuel = some r) :
    (w.GetNextUntilLaneEnd_round d
        { result := [], next := w.GetNext d, isThereNext := true }).result =
      (w.GetNext d).filter w.same_lane ∧
    (w.GetNext d).filter w.same_lane <+: r := by
  have hround : (w.GetNextUntilLaneEnd_round d
        { result := [], next := w.GetNext d, isThereNext := true }).result =
      (w.GetNext d).filter w.same_lane := by
    rw [GetNextUntilLaneEnd_round_eq]
    simp [Waypoint.walk_round]
  refine ⟨hround, ?_⟩
  cases fuel with
  | zero => simp [Waypoint.GetNextUntilLaneEnd, Waypoint.GetNextUntilLaneEnd_loop] at h
  | succ n =>
    unfold Waypoint.GetNextUntilLaneEnd Waypoint.GetNextUntilLaneEnd_loop at h
    rw [if_pos rfl, GetNextUntilLaneEnd_loop_eq] at h
    have hext := walk_loop_extends w _ n _ r h
    rw [hround] at hext
    exact hext

/-- Witness of C10: the step from the start of the example lane forks into
lane `-1` and lane `-2`; the seed is the lane `-1` candidate alone, the
first of the two waypoints of the walk. -/
theorem C10_seed_witness :
    (example_net.start.GetNext 10).filter example_net.start.same_lane =
        [Waypoint.ctor example_net.lane_net ⟨7, -1, 10⟩] ∧
      (example_net.start.GetNext 10).filter example_net.start.same_lane <+:
        [Waypoint.ctor example_net.lane_net ⟨7, -1, 10⟩,
          Waypoint.ctor example_net.lane_net ⟨7, -1, 20⟩] :=
  ⟨rfl, (C10_seed example_net.start 10 4
    [Waypoint.ctor example_net.lane_net ⟨7, -1, 10⟩,
      Waypoint.ctor example_net.lane_net ⟨7, -1, 20⟩] rfl).2⟩

/-! ## The marking accessors -/

/-- C13: `GetRightLaneMarking()` returns, without failing, the cached right
record wrapped as a `LaneMarking` when the right record is present and the
empty optional when it is absent, whatever the left record is. -/
theorem C13_right_marking (w : Waypoint) :
    w.GetRightLaneMarking =
      Except.ok (w._mark_record.1.map road.element.LaneMarking.mk) := by
  unfold Waypoint.GetRightLaneMarking
  cases w._mark_record.1 <;> rfl

/-- C14, evaluated on the code at two inputs: with the right record absent
and the left record present `GetLeftLaneMarking()` returns the empty optional
instead of the left record; with the right record present and the left
record absent it dereferences the null left pointer instead of returning the
empty optional. -/
theorem C14_left_marking_diverges :
    Waypoint.GetLeftLaneMarking ⟨example_net.lane_net, ⟨7, -1, 0⟩, example_net.origin,
        (none, some example_net.mark_left)⟩ = Except.ok none ∧
    Waypoint.GetLeftLaneMarking ⟨example_net.lane_net, ⟨7, -1, 0⟩, example_net.origin,
        (some example_net.mark_right, none)⟩ = Except.error Fault.null_dereference :=
  ⟨rfl, rfl⟩

/-- C15: on a waypoint whose right record is absent both accessors return
the empty optional, whatever the left record is; and `GetLeftLaneMarking()`
returns a marking only on a waypoint whose right record is present. -/
theorem C15_asymmetric_guard (w : Waypoint) :
    (w._mark_record.1 = none →
      w.GetRightLaneMarking = Except.ok none ∧ w.GetLeftLaneMarking = Except.ok none) ∧
    (∀ m, w.GetLeftLaneMarking = Except.ok (some m) → ∃ r, w._mark_record.1 = some r) := by
  constructor
  · intro h
    unfold Waypoint.GetRightLaneMarking Waypoint.GetLeftLaneMarking
    rw [h]
    exact ⟨rfl, rfl⟩
  · intro m hm
    unfold Waypoint.GetLeftLaneMarking at hm
    rcases h : w._mark_record.1 with _ | r
    · rw [h] at hm
      simp at hm
    · exact ⟨r, rfl⟩

/-- Witness of C15: right record absent, left record present. -/
theorem C15_asymmetric_guard_witness :
    Waypoint.GetRightLaneMarking ⟨example_net.lane_net, ⟨7, -1, 0⟩, example_net.origin,
        (none, some example_net.mark_left)⟩ = Except.ok none ∧
    Waypoint.GetLeftLaneMarking ⟨example_net.lane_net, ⟨7, -1, 0⟩, example_net.origin,
        (none, some example_net.mark_left)⟩ = Except.ok none :=
  (C15_asymmetric_guard ⟨example_net.lane_net, ⟨7, -1, 0⟩, example_net.origin,
    (none, some example_net.mark_left)⟩).1 rfl

/-! ## The lane id of the neighbouring lane -/

/-- The value read from either side enters `GetLaneChange()` through
`raw_lane_change`. -/
theorem GetLaneChange_eq (w : Waypoint) :
    w.GetLaneChange =
      LaneChange_or
        (LaneChange_and
          (if w._waypoint.lane_id > 0 then swap_right_left (raw_lane_change w._mark_record.1)
            else raw_lane_change w._mark_record.1) LaneChange.Right)
        (LaneChange_and
          (if neighbour_lane_id w._waypoint.lane_id > 0 then
              swap_right_left (raw_lane_change w._mark_record.2)
            else raw_lane_change w._mark_record.2) LaneChange.Left) := by
  unfold Waypoint.GetLaneChange raw_lane_change
  rfl

/-- C18: on a 32-bit lane id the neighbouring id `lane_id - 1` (when
`lane_id > 0`) or `lane_id + 1` is again a 32-bit value, so it is computed
without overflow, and it is positive exactly when `lane_id = 0` or
`lane_id >= 2`. So `GetLaneChange()` exchanges `Right` and `Left` in the
right value exactly when `lane_id >= 1` and in the left value exactly when
`lane_id = 0` or `lane_id >= 2`. -/
theorem C18_neighbour_lane_id (w : Waypoint) (h : IsInt32 w._waypoint.lane_id) :
    IsInt32 (if w._waypoint.lane_id > 0 then w._waypoint.lane_id - 1
      else w._waypoint.lane_id + 1) ∧
    neighbour_lane_id w._waypoint.lane_id =
      (if w._waypoint.lane_id > 0 then w._waypoint.lane_id - 1
        else w._waypoint.lane_id + 1) ∧
    (neighbour_lane_id w._waypoint.lane_id > 0 ↔
      w._waypoint.lane_id = 0 ∨ w._waypoint.lane_id ≥ 2) ∧
    w.GetLaneChange =
      LaneChange_or
        (LaneChange_and
          (if w._waypoint.lane_id ≥ 1 then swap_right_left (raw_lane_change w._mark_record.1)
            else raw_lane_change w._mark_record.1) LaneChange.Right)
        (LaneChange_and
          (if w._waypoint.lane_id = 0 ∨ w._waypoint.lane_id ≥ 2 then
              swap_right_left (raw_lane_change w._mark_record.2)
            else raw_lane_change w._mark_record.2) LaneChange.Left) := by
  have hex := neighbour_lane_id_exact _ h
  have hpos : neighbour_lane_id w._waypoint.lane_id > 0 ↔
      w._waypoint.lane_id = 0 ∨ w._waypoint.lane_id ≥ 2 := by
    rw [hex]
    split <;> omega
  refine ⟨?_, hex, hpos, ?_⟩
  · unfold IsInt32 INT32_MIN INT32_MAX at h ⊢
    split <;> omega
  · rw [GetLaneChange_eq]
    have h1 : (w._waypoint.lane_id > 0) ↔ (w._waypoint.lane_id ≥ 1) := by omega
    simp only [h1, hpos]

/-- Witness of C18: on lane `1` only the right value is exchanged (the
right record `Left` sets the `Right` bit, the left record `Right` leaves the
`Left` bit cleared), and on lane `0` only the left value is exchanged. -/
theorem C18_neighbour_lane_id_witness :
    Waypoint.GetLaneChange ⟨example_net.lane_net, ⟨7, 1, 0⟩, example_net.origin,
        (some example_net.mark_left, some example_net.mark_right)⟩ = LaneChange.Right ∧
    Waypoint.GetLaneChange ⟨example_net.lane_net, ⟨7, 0, 0⟩, example_net.origin,
        (some example_net.mark_left, some example_net.mark_right)⟩ = LaneChange.Left :=
  ⟨(C18_neighbour_lane_id ⟨example_net.lane_net, ⟨7, 1, 0⟩, example_net.origin,
      (some example_net.mark_left, some example_net.mark_right)⟩ (by decide)).2.2.2.trans
      (by decide),
   (C18_neighbour_lane_id ⟨example_net.lane_net, ⟨7, 0, 0⟩, example_net.origin,
      (some example_net.mark_left, some example_net.mark_right)⟩ (by decide)).2.2.2.trans
      (by decide)⟩

/-! ## The lane walk, round by round -/

/-- A round without a candidate on the lane clears the flag and keeps the
result. -/
theorem walk_round_nomatch (self : Waypoint) (step : Waypoint → List Waypoint)
    (st : WalkState) (h : st.next.filter self.same_lane = []) :
    (self.walk_round step st).isThereNext = false ∧
      (self.walk_round step st).result = st.result := by
  unfold Waypoint.walk_round
  constructor
  · simp only
    rw [Bool.eq_false_iff]
    intro hany
    rcases List.any_eq_true.mp hany with ⟨x, hx, hp⟩
    have : x ∈ st.next.filter self.same_lane := List.mem_filter.mpr ⟨hx, hp⟩
    rw [h] at this
    cases this
  · simp [h]

/-- A round with candidates `F` on the lane, the last of them `m`, appends
`F`, raises the flag and steps from `m`. -/
theorem walk_round_match (self : Waypoint) (step : Waypoint → List Waypoint)
    (st : WalkState) (F : List Waypoint) (m : Waypoint)
    (h : st.next.filter self.same_lane = F) (hm : F.getLast? = some m) :
    self.walk_round step st =
      { result := st.result ++ F, next := step m, isThereNext := true } := by
  have hmF : m ∈ F := List.mem_of_getLast?_eq_some hm
  have hlast : (st.result ++ F).getLast? = some m := by
    rw [List.getLast?_append, hm]
    rfl
  have hany : st.next.any self.same_lane = true := by
    rw [List.any_eq_true]
    rw [← h] at hmF
    rcases List.mem_filter.mp hmF with ⟨h1, h2⟩
    exact ⟨m, h1, h2⟩
  unfold Waypoint.walk_round
  simp only [h, hlast, hany]

/-- The loop after a round without a candidate on the lane. -/
theorem walk_loop_nomatch (self : Waypoint) (step : Waypoint → List Waypoint)
    (st : WalkState) (fuel : Nat) (hflag : st.isThereNext = true)
    (h : st.next.filter self.same_lane = []) :
    self.walk_loop step (fuel + 2) st = some st.result := by
  have hr := walk_round_nomatch self step st h
  show (if st.isThereNext then
      Waypoint.walk_loop self step (fuel + 1) (self.walk_round step st)
    else some st.result) = some st.result
  rw [if_pos hflag]
  show (if (self.walk_round step st).isThereNext then
      Waypoint.walk_loop self step fuel (self.walk_round step st |> self.walk_round step)
    else some (self.walk_round step st).result) = some st.result
  rw [hr.1, hr.2]
  rfl

/-- The loop after a round with candidates `F` on the lane, the last of them
`m`. -/
theorem walk_loop_match (self : Waypoint) (step : Waypoint → List Waypoint)
    (st : WalkState) (fuel : Nat) (F : List Waypoint) (m : Waypoint)
    (hflag : st.isThereNext = true)
    (h : st.next.filter self.same_lane = F) (hm : F.getLast? = some m) :
    self.walk_loop step (fuel + 1) st =
      self.walk_loop step fuel
        { result := st.result ++ F, next := step m, isThereNext := true } := by
  show (if st.isThereNext then
      Waypoint.walk_loop self step fuel (self.walk_round step st)
    else some st.result) = _
  rw [if_pos hflag, walk_round_match self step st F m h hm]

/-- More fuel does not change the result of a loop that has exited. -/
theorem walk_loop_mono (self : Waypoint) (step : Waypoint → List Waypoint) (fuel k : Nat)
    (st : WalkState) (r : List Waypoint) (h : self.walk_loop step fuel st = some r) :
    self.walk_loop step (fuel + k) st = some r := by
  induction fuel generalizing st with
  | zero => simp [Waypoint.walk_loop] at h
  | succ n ih =>
    rw [Nat.add_right_comm]
    unfold Waypoint.walk_loop at h ⊢
    by_cases hb : st.isThereNext = true
    · rw [if_pos hb] at h ⊢
      exact ih _ h
    · rw [if_neg hb] at h ⊢
      exact h

/-- The candidates of a step on the lane of `self` are the constructed
waypoints of the locations on that lane. -/
theorem filter_same_lane_GetNext (self x : Waypoint) (d : ℚ) :
    (x.GetNext d).filter self.same_lane =
      ((x._parent.GetMap.GetNext x._waypoint d).filter
        (fun y => decide (y.lane_id = self._waypoint.lane_id ∧
          y.road_id = self._waypoint.road_id))).map (Waypoint.ctor x._parent) := by
  unfold Waypoint.GetNext
  rw [wrap_all_eq_map, List.filter_map]
  rfl

/-- The walk is empty exactly when the first step has no candidate on the
lane, and then two tests of the loop condition are enough. -/
theorem walk_empty (self : Waypoint) (step : Waypoint → List Waypoint) :
    ((step self).filter self.same_lane = [] →
      self.walk_loop step 1 (self.walk_init step) = none ∧
      ∀ fuel, 2 ≤ fuel → self.walk_loop step fuel (self.walk_init step) = some []) ∧
    (∀ fuel, self.walk_loop step fuel (self.walk_init step) = some [] →
      (step self).filter self.same_lane = []) := by
  constructor
  · intro h
    refine ⟨rfl, ?_⟩
    intro fuel hfuel
    obtain ⟨k, rfl⟩ := Nat.exists_eq_add_of_le hfuel
    rw [Nat.add_comm]
    exact walk_loop_nomatch self step (self.walk_init step) k rfl h
  · intro fuel h
    cases fuel with
    | zero => simp [Waypoint.walk_loop] at h
    | succ n =>
      unfold Waypoint.walk_loop at h
      rw [if_pos (show (self.walk_init step).isThereNext = true from rfl)] at h
      have hext := walk_loop_extends self step n _ [] h
      have hnil := List.prefix_nil.mp hext
      unfold Waypoint.walk_round Waypoint.walk_init at hnil
      simpa using hnil

theorem not_on_lane_iff (self : Waypoint) (l : List Waypoint) :
    (∀ x ∈ l, ¬ (x.GetRoadId = self.GetRoadId ∧ x.GetLaneId = self.GetLaneId)) ↔
      l.filter self.same_lane = [] := by
  rw [List.filter_eq_nil_iff]
  constructor
  · intro h x hx hs
    simp only [Waypoint.same_lane, decide_eq_true_eq] at hs
    exact h x hx ⟨hs.2, hs.1⟩
  · intro h x hx hs
    apply h x hx
    simp only [Waypoint.same_lane, decide_eq_true_eq]
    exact ⟨hs.2, hs.1⟩

/-- C12: when no candidate of `w.GetNext(d)` is on the road and lane of `w`
(an empty `GetNext(d)` included), `GetNextUntilLaneEnd(d)` runs one round
and returns the empty sequence: one test of the loop condition is not
enough, two or more give the empty result. Conversely a walk that returns
the empty sequence had no candidate on the road and lane of `w`. The same
holds for `GetPreviousUntilLaneStart(d)` with `GetPrevious(d)`. -/
theorem C12_empty_walk (w : Waypoint) (d : ℚ) :
    (((∀ x ∈ w.GetNext d, ¬ (x.GetRoadId = w.GetRoadId ∧ x.GetLaneId = w.GetLaneId)) →
        w.GetNextUntilLaneEnd d 1 = none ∧
        ∀ fuel, 2 ≤ fuel → w.GetNextUntilLaneEnd d fuel = some []) ∧
      (∀ fuel, w.GetNextUntilLaneEnd d fuel = some [] →
        ∀ x ∈ w.GetNext d, ¬ (x.GetRoadId = w.GetRoadId ∧ x.GetLaneId = w.GetLaneId))) ∧
    (((∀ x ∈ w.GetPrevious d, ¬ (x.GetRoadId = w.GetRoadId ∧ x.GetLaneId = w.GetLaneId)) →
        w.GetPreviousUntilLaneStart d 1 = none ∧
        ∀ fuel, 2 ≤ fuel → w.GetPreviousUntilLaneStart d fuel = some []) ∧
      (∀ fuel, w.GetPreviousUntilLaneStart d fuel = some [] →
        ∀ x ∈ w.GetPrevious d,
          ¬ (x.GetRoadId = w.GetRoadId ∧ x.GetLaneId = w.GetLaneId))) := by
  have hn := walk_empty w (fun x => x.GetNext d)
  have hp := walk_empty w (fun x => x.GetPrevious d)
  simp only [← GetNextUntilLaneEnd_eq_walk] at hn
  simp only [← GetPreviousUntilLaneStart_eq_walk] at hp
  refine ⟨⟨?_, ?_⟩, ⟨?_, ?_⟩⟩
  · intro h
    exact hn.1 ((not_on_lane_iff w _).mp h)
  · intro fuel h
    exact (not_on_lane_iff w _).mpr (hn.2 fuel h)
  · intro h
    exact hp.1 ((not_on_lane_iff w _).mp h)
  · intro fuel h
    exact (not_on_lane_iff w _).mpr (hp.2 fuel h)

/-- Witness of C12: at the end of the example lane the forward step is
empty, and at its start the backward step is empty; both walks return the
empty sequence. -/
theorem C12_empty_walk_witness :
    example_net.finish.GetNextUntilLaneEnd 10 2 = some [] ∧
      example_net.start.GetPreviousUntilLaneStart 10 2 = some [] :=
  ⟨((C12_empty_walk example_net.finish 10).1.1 (by
      intro x hx
      have h : example_net.finish.GetNext 10 = [] := rfl
      rw [h] at hx
      cases hx)).2 2 (Nat.le_refl 2),
   ((C12_empty_walk example_net.start 10).2.1 (by
      intro x hx
      have h : example_net.start.GetPrevious 10 = [] := rfl
      rw [h] at hx
      cases hx)).2 2 (Nat.le_refl 2)⟩

/-- C11: on a network in which a step of 10 from `s = 0`, `10` and `20` on
the lane yields the single same-lane location at `s + 10` and a step of 10
from `s = 30` yields no same-lane location, `GetNextUntilLaneEnd(10)` on the
waypoint at `s = 0` terminates (five tests of the loop condition, or more)
and returns exactly the three waypoints at `s = 10, 20, 30`, in that
order. -/
theorem C11_boundary_scenario (P : Map) (r : Nat) (l : Int) (t : road.Transform)
    (mk : Option road.RoadInfoMarkRecord × Option road.RoadInfoMarkRecord) (fuel : Nat)
    (hfuel : 5 ≤ fuel)
    (h0 : (P.GetMap.GetNext ⟨r, l, 0⟩ 10).filter
      (fun y => decide (y.lane_id = l ∧ y.road_id = r)) = [⟨r, l, 10⟩])
    (h10 : (P.GetMap.GetNext ⟨r, l, 10⟩ 10).filter
      (fun y => decide (y.lane_id = l ∧ y.road_id = r)) = [⟨r, l, 20⟩])
    (h20 : (P.GetMap.GetNext ⟨r, l, 20⟩ 10).filter
      (fun y => decide (y.lane_id = l ∧ y.road_id = r)) = [⟨r, l, 30⟩])
    (h30 : (P.GetMap.GetNext ⟨r, l, 30⟩ 10).filter
      (fun y => decide (y.lane_id = l ∧ y.road_id = r)) = []) :
    Waypoint.GetNextUntilLaneEnd ⟨P, ⟨r, l, 0⟩, t, mk⟩ 10 fuel =
        some [Waypoint.ctor P ⟨r, l, 10⟩, Waypoint.ctor P ⟨r, l, 20⟩,
          Waypoint.ctor P ⟨r, l, 30⟩] ∧
      (Waypoint.GetNextUntilLaneEnd ⟨P, ⟨r, l, 0⟩, t, mk⟩ 10 fuel).map
          (List.map (fun x => x._waypoint.s)) = some [10, 20, 30] := by
  have key : Waypoint.GetNextUntilLaneEnd ⟨P, ⟨r, l, 0⟩, t, mk⟩ 10 5 =
      some [Waypoint.ctor P ⟨r, l, 10⟩, Waypoint.ctor P ⟨r, l, 20⟩,
        Waypoint.ctor P ⟨r, l, 30⟩] := by
    rw [GetNextUntilLaneEnd_eq_walk]
    have f0 := filter_same_lane_GetNext ⟨P, ⟨r, l, 0⟩, t, mk⟩ ⟨P, ⟨r, l, 0⟩, t, mk⟩ 10
    have f10 := filter_same_lane_GetNext ⟨P, ⟨r, l, 0⟩, t, mk⟩ (Waypoint.ctor P ⟨r, l, 10⟩) 10
    have f20 := filter_same_lane_GetNext ⟨P, ⟨r, l, 0⟩, t, mk⟩ (Waypoint.ctor P ⟨r, l, 20⟩) 10
    have f30 := filter_same_lane_GetNext ⟨P, ⟨r, l, 0⟩, t, mk⟩ (Waypoint.ctor P ⟨r, l, 30⟩) 10
    simp only [Waypoint.ctor] at f10 f20 f30
    simp only [h0, h10, h20, h30, List.map_cons, List.map_nil] at f0 f10 f20 f30
    rw [walk_loop_match _ _ _ 4 [Waypoint.ctor P ⟨r, l, 10⟩] (Waypoint.ctor P ⟨r, l, 10⟩)
      rfl f0 rfl]
    rw [walk_loop_match _ _ _ 3 [Waypoint.ctor P ⟨r, l, 20⟩] (Waypoint.ctor P ⟨r, l, 20⟩)
      rfl f10 rfl]
    rw [walk_loop_match _ _ _ 2 [Waypoint.ctor P ⟨r, l, 30⟩] (Waypoint.ctor P ⟨r, l, 30⟩)
      rfl f20 rfl]
    rw [walk_loop_nomatch _ _ _ 0 rfl f30]
    rfl
  have full : Waypoint.GetNextUntilLaneEnd ⟨P, ⟨r, l, 0⟩, t, mk⟩ 10 fuel =
      some [Waypoint.ctor P ⟨r, l, 10⟩, Waypoint.ctor P ⟨r, l, 20⟩,
        Waypoint.ctor P ⟨r, l, 30⟩] := by
    obtain ⟨k, rfl⟩ := Nat.exists_eq_add_of_le hfuel
    rw [GetNextUntilLaneEnd_eq_walk] at key ⊢
    exact walk_loop_mono _ _ 5 k _ _ key
  refine ⟨full, ?_⟩
  rw [full]
  rfl

/-- Witness of C11: the lane of length 40 stepped by 10 from `s = 0` on road
1, lane `-1`. -/
theorem C11_boundary_scenario_witness :
    ((Waypoint.ctor example_net.lane40_net ⟨1, -1, 0⟩).GetNextUntilLaneEnd 10 5).map
        (List.map (fun x => x._waypoint.s)) = some [10, 20, 30] :=
  (C11_boundary_scenario example_net.lane40_net 1 (-1) example_net.origin (none, none) 5
    (Nat.le_refl 5)
    (by simp [example_net.lane40_net, Map.GetMap]; norm_num)
    (by simp [example_net.lane40_net, Map.GetMap]; norm_num)
    (by simp [example_net.lane40_net, Map.GetMap]; norm_num)
    (by simp [example_net.lane40_net, Map.GetMap]; norm_num)).2

/-! ## The last match drives the walk -/

/-- The test of the walk depends on `self` through its road and lane id
only. -/
theorem same_lane_congr (self m : Waypoint) (hl : m.GetLaneId = self.GetLaneId)
    (hr : m.GetRoadId = self.GetRoadId) : m.same_lane = self.same_lane := by
  funext x
  unfold Waypoint.same_lane
  rw [hl, hr]

theorem walk_loop_congr (self m : Waypoint) (step : Waypoint → List Waypoint)
    (hl : m.GetLaneId = self.GetLaneId) (hr : m.GetRoadId = self.GetRoadId)
    (fuel : Nat) (st : WalkState) :
    m.walk_loop step fuel st = self.walk_loop step fuel st := by
  induction fuel generalizing st with
  | zero => rfl
  | succ n ih =>
    unfold Waypoint.walk_loop
    rw [ih]
    unfold Waypoint.walk_round
    rw [same_lane_congr self m hl hr]

/-- A loop entered with `M` in front of the result returns `M` in front of
what the loop returns without it, as long as the two frontiers agree while
the loop continues. -/
theorem walk_loop_prepend (self : Waypoint) (step : Waypoint → List Waypoint)
    (M : List Waypoint) (fuel : Nat) (st st2 : WalkState)
    (hres : st2.result = M ++ st.result) (hflag : st2.isThereNext = st.isThereNext)
    (hnext : st.isThereNext = true → st2.next = st.next) :
    self.walk_loop step fuel st2 = (self.walk_loop step fuel st).map (fun r => M ++ r) := by
  induction fuel generalizing st st2 with
  | zero => rfl
  | succ n ih =>
    unfold Waypoint.walk_loop
    by_cases hb : st.isThereNext = true
    · have hb2 : st2.isThereNext = true := by rw [hflag]; exact hb
      rw [if_pos hb, if_pos hb2]
      have hn := hnext hb
      apply ih
      · unfold Waypoint.walk_round
        simp only [hres, hn, List.append_assoc]
      · unfold Waypoint.walk_round
        simp only [hn]
      · intro hcont
        have hany : st.next.any self.same_lane = true := hcont
        rcases List.any_eq_true.mp hany with ⟨x, hx, hp⟩
        have hF : st.next.filter self.same_lane ≠ [] := by
          intro hnil
          have : x ∈ st.next.filter self.same_lane := List.mem_filter.mpr ⟨hx, hp⟩
          rw [hnil] at this
          cases this
        obtain ⟨m, hm⟩ : ∃ m, (st.next.filter self.same_lane).getLast? = some m := by
          rcases hl : (st.next.filter self.same_lane).getLast? with _ | m
          · exact absurd (List.getLast?_eq_none_iff.mp hl) hF
          · exact ⟨m, rfl⟩
        have e1 := walk_round_match self step st _ m rfl hm
        have e2 := walk_round_match self step st2 _ m (by rw [hn]) hm
        rw [e1, e2]
    · have hb2 : ¬ st2.isThereNext = true := by rw [hflag]; exact hb
      rw [if_neg hb, if_neg hb2, hres]
      rfl

/-- The recurrence of a walk that steps by `step`, a step that stays on the
lane test of `self`: with `M` the candidates of the first step on the lane
and `m` the last of them, the walk of `self` is `M` followed by the walk of
`m`, with one more test of the loop condition. -/
theorem walk_recurrence (self m : Waypoint) (step : Waypoint → List Waypoint)
    (hm : ((step self).filter self.same_lane).getLast? = some m) (fuel : Nat) :
    self.walk_loop step (fuel + 1) (self.walk_init step) =
      (m.walk_loop step fuel (m.walk_init step)).map
        (fun r => (step self).filter self.same_lane ++ r) := by
  have hmem := List.mem_of_getLast?_eq_some hm
  have hs : self.same_lane m = true := (List.mem_filter.mp hmem).2
  simp only [Waypoint.same_lane, decide_eq_true_eq] at hs
  rw [walk_loop_match self step (self.walk_init step) fuel _ m rfl rfl hm]
  rw [walk_loop_congr self m step hs.1 hs.2]
  exact walk_loop_prepend self step _ fuel (m.walk_init step) _
    (by simp [Waypoint.walk_init]) rfl (fun _ => rfl)

/-- C16: let `M` be the candidates of `w.GetNext(d)` on the road and lane
of `w`, in order, not empty, and `m` the last of them. Then the walk of `w`
with one more test of the loop condition is `M` followed by the walk of `m`:
`w.GetNextUntilLaneEnd(d)` terminates exactly when `m.GetNextUntilLaneEnd(d)`
does, and its result is then `M ++ m.GetNextUntilLaneEnd(d)`. The same
recurrence holds for `GetPreviousUntilLaneStart` with `GetPrevious`. -/
theorem C16_last_match_expansion (w m : Waypoint) (d : ℚ) :
    (((w.GetNext d).filter w.same_lane).getLast? = some m →
      (∀ fuel, w.GetNextUntilLaneEnd d (fuel + 1) =
        (m.GetNextUntilLaneEnd d fuel).map (fun r => (w.GetNext d).filter w.same_lane ++ r)) ∧
      ((∃ fuel r, w.GetNextUntilLaneEnd d fuel = some r) ↔
        (∃ fuel r, m.GetNextUntilLaneEnd d fuel = some r)) ∧
      (∀ fuel r, w.GetNextUntilLaneEnd d fuel = some r →
        ∃ fuel2 r2, m.GetNextUntilLaneEnd d fuel2 = some r2 ∧
          r = (w.GetNext d).filter w.same_lane ++ r2)) ∧
    (((w.GetPrevious d).filter w.same_lane).getLast? = some m →
      (∀ fuel, w.GetPreviousUntilLaneStart d (fuel + 1) =
        (m.GetPreviousUntilLaneStart d fuel).map
          (fun r => (w.GetPrevious d).filter w.same_lane ++ r)) ∧
      ((∃ fuel r, w.GetPreviousUntilLaneStart d fuel = some r) ↔
        (∃ fuel r, m.GetPreviousUntilLaneStart d fuel = some r)) ∧
      (∀ fuel r, w.GetPreviousUntilLaneStart d fuel = some r →
        ∃ fuel2 r2, m.GetPreviousUntilLaneStart d fuel2 = some r2 ∧
          r = (w.GetPrevious d).filter w.same_lane ++ r2)) := by
  constructor
  · intro hm
    have hrec : ∀ fuel, w.GetNextUntilLaneEnd d (fuel + 1) =
        (m.GetNextUntilLaneEnd d fuel).map
          (fun r => (w.GetNext d).filter w.same_lane ++ r) := by
      intro fuel
      rw [GetNextUntilLaneEnd_eq_walk, GetNextUntilLaneEnd_eq_walk]
      exact walk_recurrence w m (fun x => x.GetNext d) hm fuel
    have hdown : ∀ fuel r, w.GetNextUntilLaneEnd d fuel = some r →
        ∃ fuel2 r2, m.GetNextUntilLaneEnd d fuel2 = some r2 ∧
          r = (w.GetNext d).filter w.same_lane ++ r2 := by
      intro fuel r h
      cases fuel with
      | zero => cases h
      | succ n =>
        rw [hrec n] at h
        rcases hr : m.GetNextUntilLaneEnd d n with _ | r2
        · rw [hr] at h
          cases h
        · rw [hr] at h
          exact ⟨n, r2, hr, (Option.some.inj h).symm⟩
    refine ⟨hrec, ⟨?_, ?_⟩, hdown⟩
    · rintro ⟨fuel, r, h⟩
      obtain ⟨fuel2, r2, h2, _⟩ := hdown fuel r h
      exact ⟨fuel2, r2, h2⟩
    · rintro ⟨fuel, r, h⟩
      exact ⟨fuel + 1, _, by rw [hrec fuel, h]; rfl⟩
  · intro hm
    have hrec : ∀ fuel, w.GetPreviousUntilLaneStart d (fuel + 1) =
        (m.GetPreviousUntilLaneStart d fuel).map
          (fun r => (w.GetPrevious d).filter w.same_lane ++ r) := by
      intro fuel
      rw [GetPreviousUntilLaneStart_eq_walk, GetPreviousUntilLaneStart_eq_walk]
      exact walk_recurrence w m (fun x => x.GetPrevious d) hm fuel
    have hdown : ∀ fuel r, w.GetPreviousUntilLaneStart d fuel = some r →
        ∃ fuel2 r2, m.GetPreviousUntilLaneStart d fuel2 = some r2 ∧
          r = (w.GetPrevious d).filter w.same_lane ++ r2 := by
      intro fuel r h
      cases fuel with
      | zero => cases h
      | succ n =>
        rw [hrec n] at h
        rcases hr : m.GetPreviousUntilLaneStart d n with _ | r2
        · rw [hr] at h
          cases h
        · rw [hr] at h
          exact ⟨n, r2, hr, (Option.some.inj h).symm⟩
    refine ⟨hrec, ⟨?_, ?_⟩, hdown⟩
    · rintro ⟨fuel, r, h⟩
      obtain ⟨fuel2, r2, h2, _⟩ := hdown fuel r h
      exact ⟨fuel2, r2, h2⟩
    · rintro ⟨fuel, r, h⟩
      exact ⟨fuel + 1, _, by rw [hrec fuel, h]; rfl⟩

/-- Witness of C16: on the fork the step from `s = 0` has the two matches
`s = 10` and `s = 12`; the walk is these two followed by the walk of the
last one, `s = 22`, and the successor `s = 20` of the first match is not in
it. -/
theorem C16_last_match_expansion_witness :
    (Waypoint.ctor example_net.fork_net ⟨7, -1, 0⟩).GetNextUntilLaneEnd 10 4 =
      some ([Waypoint.ctor example_net.fork_net ⟨7, -1, 10⟩,
          Waypoint.ctor example_net.fork_net ⟨7, -1, 12⟩] ++
        [Waypoint.ctor example_net.fork_net ⟨7, -1, 22⟩]) :=
  ((C16_last_match_expansion (Waypoint.ctor example_net.fork_net ⟨7, -1, 0⟩)
    (Waypoint.ctor example_net.fork_net ⟨7, -1, 12⟩) 10).1 rfl).1 3

/-! ## Termination under distance-stepping -/

/-- The loop exits within `n + 2` tests when the candidates of the frontier
on the lane lie at `c` or beyond and `n` more steps of `d` leave the lane of
length `L`. -/
theorem walk_loop_terminates (w : Waypoint) (d L : ℚ)
    (hstep : ∀ loc x, loc.road_id = w._waypoint.road_id →
      loc.lane_id = w._waypoint.lane_id → 0 ≤ loc.s → loc.s ≤ L →
      x ∈ w._parent.GetMap.GetNext loc d →
      x.road_id = w._waypoint.road_id → x.lane_id = w._waypoint.lane_id →
      loc.s + d ≤ x.s ∧ x.s ≤ L)
    (hd : 0 < d) (n : Nat) (st : WalkState) (c : ℚ) (hc : 0 ≤ c)
    (hflag : st.isThereNext = true)
    (hparent : ∀ x ∈ st.next, x._parent = w._parent)
    (hnext : ∀ x ∈ st.next, w.same_lane x = true → c ≤ x._waypoint.s ∧ x._waypoint.s ≤ L)
    (hn : L < c + n * d) :
    ∃ r, w.walk_loop (fun x => x.GetNext d) (n + 2) st = some r := by
  induction n generalizing st c with
  | zero =>
    have hF : st.next.filter w.same_lane = [] := by
      rw [List.filter_eq_nil_iff]
      intro x hx hs
      have := hnext x hx hs
      simp only [Nat.cast_zero, zero_mul, add_zero] at hn
      linarith [this.1, this.2]
    exact ⟨st.result, walk_loop_nomatch w _ st 0 hflag hF⟩
  | succ n ih =>
    rcases hl : (st.next.filter w.same_lane).getLast? with _ | m
    · have hF := List.getLast?_eq_none_iff.mp hl
      exact ⟨st.result, walk_loop_nomatch w _ st (n + 1) hflag hF⟩
    · rw [walk_loop_match w _ st (n + 2) _ m hflag rfl hl]
      have hmem := List.mem_filter.mp (List.mem_of_getLast?_eq_some hl)
      have hmP := hparent m hmem.1
      have hmb := hnext m hmem.1 hmem.2
      have hms := hmem.2
      simp only [Waypoint.same_lane, decide_eq_true_eq, Waypoint.GetLaneId,
        Waypoint.GetRoadId] at hms
      apply ih _ (c + d) (by linarith) rfl
      · intro x hx
        rw [GetNext_parent d m x hx, hmP]
      · intro x hx hs
        have hx2 : x ∈ (m.GetNext d) := hx
        unfold Waypoint.GetNext at hx2
        rw [wrap_all_eq_map] at hx2
        rcases List.mem_map.mp hx2 with ⟨loc, hloc, rfl⟩
        simp only [Waypoint.same_lane, decide_eq_true_eq, Waypoint.GetLaneId,
          Waypoint.GetRoadId, Waypoint.ctor] at hs
        rw [hmP] at hloc
        have := hstep m._waypoint loc hms.2 hms.1 (by linarith [hmb.1]) hmb.2 hloc hs.2 hs.1
        simp only [Waypoint.ctor]
        constructor
        · linarith [this.1, hmb.1]
        · exact this.2
      · push_cast at hn ⊢
        linarith

/-- C17: for a distance `d > 0` and a lane of length `L`, on a network in
which every same-lane candidate of a `GetNext` step from a location of the
lane lies at least `d` beyond that location and not beyond `L`,
`GetNextUntilLaneEnd(d)` from a waypoint at `0 <= s <= L` terminates, within
`floor(L / d) + 2` tests of the loop condition, that is after at most
`floor(L / d) + 1` rounds. -/
theorem C17_termination (w : Waypoint) (d L : ℚ) (hd : 0 < d)
    (h0 : 0 ≤ w._waypoint.s) (hL : w._waypoint.s ≤ L)
    (hstep : ∀ loc x, loc.road_id = w._waypoint.road_id →
      loc.lane_id = w._waypoint.lane_id → 0 ≤ loc.s → loc.s ≤ L →
      x ∈ w._parent.GetMap.GetNext loc d →
      x.road_id = w._waypoint.road_id → x.lane_id = w._waypoint.lane_id →
      loc.s + d ≤ x.s ∧ x.s ≤ L) :
    ∃ r, w.GetNextUntilLaneEnd d (⌊L / d⌋₊ + 2) = some r := by
  rw [GetNextUntilLaneEnd_eq_walk]
  apply walk_loop_terminates w d L hstep hd ⌊L / d⌋₊ _ (w._waypoint.s + d) (by linarith) rfl
  · intro x hx
    exact GetNext_parent d w x hx
  · intro x hx hs
    have hx2 : x ∈ (w.GetNext d) := hx
    unfold Waypoint.GetNext at hx2
    rw [wrap_all_eq_map] at hx2
    rcases List.mem_map.mp hx2 with ⟨loc, hloc, rfl⟩
    simp only [Waypoint.same_lane, decide_eq_true_eq, Waypoint.GetLaneId,
      Waypoint.GetRoadId, Waypoint.ctor] at hs
    exact hstep w._waypoint loc rfl rfl h0 hL hloc hs.2 hs.1
  · have h1 : L / d < ⌊L / d⌋₊ + 1 := Nat.lt_floor_add_one (L / d)
    have h2 : L < (⌊L / d⌋₊ + 1) * d := (div_lt_iff₀ hd).mp h1
    linarith

/-- Witness of C17: the lane of length 40 stepped by 10 from `s = 0`; the
walk terminates within `floor(40 / 10) + 2 = 6` tests. -/
theorem C17_termination_witness :
    ∃ r, (Waypoint.ctor example_net.lane40_net ⟨1, -1, 0⟩).GetNextUntilLaneEnd 10
      (⌊(40 : ℚ) / 10⌋₊ + 2) = some r :=
  C17_termination (Waypoint.ctor example_net.lane40_net ⟨1, -1, 0⟩) 10 40 (by norm_num)
    (le_refl _) (by simp [Waypoint.ctor])
    (by
      intro loc x _ _ _ _ hx _ _
      simp only [Waypoint.ctor, example_net.lane40_net, Map.GetMap] at hx
      split at hx
      · rename_i hlt
        simp only [List.mem_singleton] at hx
        subst hx
        exact ⟨le_refl _, le_of_lt hlt⟩
      · cases hx)

/-! ## Direction duality -/

/-- A map `φ` of waypoints that keeps the lane test and carries the step
`step1` to the step `step2` carries the loop over `step1` to the loop over
`step2`. -/
theorem walk_loop_map (self : Waypoint) (step1 step2 : Waypoint → List Waypoint)
    (φ : Waypoint → Waypoint)
    (hsame : ∀ x, (φ self).same_lane (φ x) = self.same_lane x)
    (hstep : ∀ x, step2 (φ x) = (step1 x).map φ)
    (fuel : Nat) (st : WalkState) :
    (φ self).walk_loop step2 fuel
        { result := st.result.map φ, next := st.next.map φ, isThereNext := st.isThereNext } =
      (self.walk_loop step1 fuel st).map (List.map φ) := by
  induction fuel generalizing st with
  | zero => rfl
  | succ n ih =>
    unfold Waypoint.walk_loop
    by_cases hb : st.isThereNext = true
    · simp only [hb, if_true]
      rw [← ih]
      congr 1
      have hfilter : (st.next.map φ).filter (φ self).same_lane =
          (st.next.filter self.same_lane).map φ := by
        rw [List.filter_map]
        congr 1
        apply List.filter_congr
        intro x _
        exact hsame x
      have hany : (st.next.map φ).any (φ self).same_lane = st.next.any self.same_lane := by
        rw [List.any_map]
        congr 1
        funext x
        exact hsame x
      unfold Waypoint.walk_round
      simp only [hfilter, hany, ← List.map_append, List.getLast?_map]
      rcases (st.result ++ st.next.filter self.same_lane).getLast? with _ | back
      · rfl
      · simp only [Option.map_some', hstep]
    · simp only [hb]
      rfl

/-- A step forward on the reversed network is the step backward on the
network, carried over. -/
theorem on_reversed_GetNext (x : Waypoint) (d : ℚ) :
    x.on_reversed.GetNext d = (x.GetPrevious d).map Waypoint.on_reversed := by
  unfold Waypoint.GetNext Waypoint.GetPrevious
  rw [wrap_all_eq_map, wrap_all_eq_map, List.map_map]
  rfl

/-- The backward walk on a network, carried over to the reversed network, is
the forward walk there. -/
theorem on_reversed_walk (w : Waypoint) (d : ℚ) (fuel : Nat) :
    w.on_reversed.GetNextUntilLaneEnd d fuel =
      (w.GetPreviousUntilLaneStart d fuel).map (List.map Waypoint.on_reversed) := by
  rw [GetNextUntilLaneEnd_eq_walk, GetPreviousUntilLaneStart_eq_walk]
  have h := walk_loop_map w (fun x => x.GetPrevious d) (fun x => x.GetNext d)
    Waypoint.on_reversed (fun _ => rfl) (fun x => on_reversed_GetNext x d) fuel
    (w.walk_init (fun x => x.GetPrevious d))
  rw [← h]
  unfold Waypoint.walk_init
  simp only [List.map_nil, on_reversed_GetNext]

/-- C19: for every network `N`, location and distance `d`, the locations
returned by `GetPreviousUntilLaneStart(d)` over `N` are the locations
returned by `GetNextUntilLaneEnd(d)` over `N` with `GetNext` replaced by the
`GetPrevious` of `N`, test for test of the loop condition; so one walk
terminates exactly when the other does. -/
theorem C19_direction_duality (N : Map) (loc : road.element.Waypoint) (d : ℚ) :
    (∀ fuel, ((Waypoint.ctor N loc).GetPreviousUntilLaneStart d fuel).map
        (List.map (fun x => x._waypoint)) =
      ((Waypoint.ctor N.reversed loc).GetNextUntilLaneEnd d fuel).map
        (List.map (fun x => x._waypoint))) ∧
    ((∃ fuel r, (Waypoint.ctor N loc).GetPreviousUntilLaneStart d fuel = some r) ↔
      (∃ fuel r, (Waypoint.ctor N.reversed loc).GetNextUntilLaneEnd d fuel = some r)) := by
  have hctor : Waypoint.ctor N.reversed loc = (Waypoint.ctor N loc).on_reversed := rfl
  have hwalk := on_reversed_walk (Waypoint.ctor N loc) d
  rw [hctor]
  constructor
  · intro fuel
    rw [hwalk fuel, Option.map_map]
    congr 1
    funext r
    simp only [Function.comp, List.map_map]
    rfl
  · constructor
    · rintro ⟨fuel, r, h⟩
      exact ⟨fuel, r.map Waypoint.on_reversed, by rw [hwalk fuel, h]; rfl⟩
    · rintro ⟨fuel, r, h⟩
      rw [hwalk fuel] at h
      rcases hp : (Waypoint.ctor N loc).GetPreviousUntilLaneStart d fuel with _ | r2
      · rw [hp] at h
        cases h
      · exact ⟨fuel, r2, hp⟩

/-! ## A walk that never ends -/

/-- On a waypoint whose step returns it again, the loop never exits and
every round appends the waypoint once more. -/
theorem walk_self_loop (c : Waypoint) (step : Waypoint → List Waypoint)
    (hstep : step c = [c]) (fuel k : Nat) :
    c.walk_loop step fuel
        { result := List.replicate k c, next := [c], isThereNext := true } = none ∧
      (c.walk_round step)^[fuel]
          { result := List.replicate k c, next := [c], isThereNext := true } =
        { result := List.replicate (k + fuel) c, next := [c], isThereNext := true } := by
  have hs : c.same_lane c = true := by simp [Waypoint.same_lane]
  have hround : ∀ j, c.walk_round step
      { result := List.replicate j c, next := [c], isThereNext := true } =
      { result := List.replicate (j + 1) c, next := [c], isThereNext := true } := by
    intro j
    rw [walk_round_match c step _ [c] c (by simp [hs]) rfl, hstep]
    simp only [List.replicate_succ']
  induction fuel generalizing k with
  | zero => exact ⟨rfl, rfl⟩
  | succ n ih =>
    constructor
    · unfold Waypoint.walk_loop
      simp only [if_true]
      rw [hround]
      exact (ih (k + 1)).1
    · rw [Function.iterate_succ_apply, hround, (ih (k + 1)).2]
      congr 2
      omega

/-- C20: there is a network, a waypoint and a distance, the step from the
waypoint's location returning that location again, for which
`GetNextUntilLaneEnd(d)` never terminates: whatever the bound `n` on the
tests of the loop condition the loop has not exited, and after `n` rounds
it is still continuing with `n` waypoints accumulated. -/
theorem C20_walk_may_not_terminate :
    ∃ (N : Map) (loc : road.element.Waypoint) (d : ℚ),
      N.GetMap.GetNext loc d = [loc] ∧
      ∀ n : Nat,
        (Waypoint.ctor N loc).GetNextUntilLaneEnd d n = none ∧
        (((Waypoint.ctor N loc).GetNextUntilLaneEnd_round d)^[n]
          { result := [], next := (Waypoint.ctor N loc).GetNext d,
            isThereNext := true }).isThereNext = true ∧
        n ≤ (((Waypoint.ctor N loc).GetNextUntilLaneEnd_round d)^[n]
          { result := [], next := (Waypoint.ctor N loc).GetNext d,
            isThereNext := true }).result.length := by
  refine ⟨example_net.self_loop_net, ⟨7, -1, 0⟩, 10, rfl, ?_⟩
  intro n
  have hstep : (fun x : Waypoint => x.GetNext 10)
      (Waypoint.ctor example_net.self_loop_net ⟨7, -1, 0⟩) =
      [Waypoint.ctor example_net.self_loop_net ⟨7, -1, 0⟩] := rfl
  have h := walk_self_loop (Waypoint.ctor example_net.self_loop_net ⟨7, -1, 0⟩)
    (fun x => x.GetNext 10) hstep n 0
  have hround : (Waypoint.ctor example_net.self_loop_net ⟨7, -1, 0⟩).GetNextUntilLaneEnd_round 10
      = (Waypoint.ctor example_net.self_loop_net ⟨7, -1, 0⟩).walk_round
        (fun x => x.GetNext 10) := by
    funext st
    exact GetNextUntilLaneEnd_round_eq _ _ _
  have hinit : (Waypoint.ctor example_net.self_loop_net ⟨7, -1, 0⟩).GetNext 10 =
      [Waypoint.ctor example_net.self_loop_net ⟨7, -1, 0⟩] := rfl
  rw [GetNextUntilLaneEnd_eq_walk, hround, hinit]
  refine ⟨h.1, ?_, ?_⟩
  · have h2 := h.2
    simp only [List.replicate_zero] at h2
    rw [h2]
  · have h2 := h.2
    simp only [List.replicate_zero] at h2
    rw [h2]
    simp

end client
end carla
